import Mathlib

/-!
Verification development for the NewsHub resilience and ranking core.

The definitions below are a shallow embedding of the TypeScript sources:

* `src/services/preloadingService.ts` (`PreloadingService`, `ErrorHandler`)
* `src/services/popularityRankingService.ts` (`PopularityRankingService`)
* `src/services/networkService.ts` (`NetworkService.isSimilarTitle`,
  `NetworkService.removeDuplicates`)
* `src/utils/articleDiversity.ts`
* `src/services/mockDataService.ts` (`MockDataService.getMockArticles`)

Conventions of the embedding:

* JS epoch-millisecond timestamps (`Date.now()`, parsed `publishedAt`
  strings) are `Int`; the current time is passed explicitly as `now`.
* JS numbers used for scores and similarity ratios are `ℚ`.  The only
  JS `NaN` that can arise in the embedded code is `0/0` in the character
  Jaccard similarity of two empty strings; `NaN > 0.8` is `false` in JS
  and `0/0 = 0 ≤ 0.8` in `ℚ`, so the branch outcome agrees.
* JS exceptions are `Except String`; async/await only sequences the
  embedded code, so functions are direct-style with explicit state.
* JS `Map` (insertion-ordered, `set` keeps the position of an existing
  key) is an association list with update-in-place semantics.
-/

namespace NewsHub

/-- Modelled from the spec: the category enumeration of
`src/types/Article.ts`, which is not part of the provided sources; its
members are exactly the ones referenced by the services, and its string
values (used when a category is interpolated into an id) are the
lowercase names used by the sample data. -/
inductive Category where
  | ALL | INDIA | SOFTWARE | SPORTS | TECH | BREAKING | WORLD | BUSINESS
  | POLITICAL | WEB_DEV | AI_ML | MOBILE_DEV | SCIENCE | STARTUPS | COOKING
  deriving DecidableEq, Repr

/-- Modelled from the spec: string value of a `Category` member
(`src/types/Article.ts` is not in the provided sources). -/
def Category.toStr : Category → String
  | .ALL => "all" | .INDIA => "india" | .SOFTWARE => "software"
  | .SPORTS => "sports" | .TECH => "tech" | .BREAKING => "breaking"
  | .WORLD => "world" | .BUSINESS => "business" | .POLITICAL => "political"
  | .WEB_DEV => "web_dev" | .AI_ML => "ai_ml" | .MOBILE_DEV => "mobile_dev"
  | .SCIENCE => "science" | .STARTUPS => "startups" | .COOKING => "cooking"

/-- Modelled from the spec: the `Article` record of `src/types/Article.ts`
(not in the provided sources); the fields are the ones the embedded
services read.  `publishedAt` is the parsed timestamp in epoch ms. -/
structure Article where
  id : String
  title : String
  description : String
  url : String
  urlToImage : Option String
  author : String
  source : String
  publishedAt : Int
  category : Category
  tags : List String
  deriving DecidableEq, Repr

/-- Modelled from the spec: `ServiceResponse<Article[]>` of
`src/types/Article.ts` (not in the provided sources), as constructed and
consumed by the embedded services. -/
structure ServiceResponse where
  data : List Article
  source : String
  timestamp : Int
  hasMore : Bool
  totalResults : Nat
  deriving DecidableEq, Repr

/-! ### Association lists standing for JS `Map` -/

/-- Lookup in an insertion-ordered association list (JS `Map.get`). -/
def lookupKey {β : Type} (l : List (String × β)) (k : String) : Option β :=
  match l with
  | [] => none
  | (k', v) :: rest => if k' = k then some v else lookupKey rest k

/-- JS `Map.set`: update the value in place when the key is present
(keeping its insertion position), otherwise append. -/
def setKey {β : Type} (l : List (String × β)) (k : String) (v : β) :
    List (String × β) :=
  match l with
  | [] => [(k, v)]
  | (k', v') :: rest =>
    if k' = k then (k', v) :: rest else (k', v') :: setKey rest k v

/-- JS `Map.delete`. -/
def eraseKey {β : Type} (l : List (String × β)) (k : String) :
    List (String × β) :=
  match l with
  | [] => []
  | (k', v') :: rest =>
    if k' = k then rest else (k', v') :: eraseKey rest k

/-! ### Title similarity (`NetworkService.isSimilarTitle`,
`src/services/networkService.ts` lines 307–322; the same function also
appears verbatim in the second `PreloadingService` variant) -/

/-- JS `\w` character class (the titles involved are ASCII). -/
def isWordChar (c : Char) : Bool :=
  c.isAlphanum || c = '_'

/-- JS `toLowerCase` on the ASCII range (the embedded strings are ASCII). -/
def toLowerCh (c : Char) : Char :=
  if 65 ≤ c.toNat ∧ c.toNat ≤ 90 then Char.ofNat (c.toNat + 32) else c

/-- Split a character list on whitespace runs (JS `split(/\s+/)`); empty
chunks (from leading or repeated whitespace) are produced here and are
removed by the callers' length filters, matching the JS behaviour. -/
def splitWsAux : List Char → List Char → List (List Char)
  | [], acc => [acc.reverse]
  | c :: cs, acc =>
    if c.isWhitespace then acc.reverse :: splitWsAux cs []
    else splitWsAux cs (c :: acc)

/-- The `normalize` closure of `isSimilarTitle`: strip characters that are
neither word characters nor whitespace, lowercase, split on whitespace,
and keep only words longer than 3 characters. -/
def normalizeTitleWords (t : String) : List (List Char) :=
  let cleaned := (t.toList.filter (fun c => isWordChar c || c.isWhitespace)).map toLowerCh
  (splitWsAux cleaned []).filter (fun w => w.length > 3)

/-- Word-set Jaccard similarity test of `NetworkService.isSimilarTitle`:
both word sets empty → similar; exactly one empty → not similar;
otherwise similar iff `|inter| / |union| ≥ 0.7`. -/
def isSimilarTitle (title1 title2 : String) : Bool :=
  let words1 := (normalizeTitleWords title1).dedup
  let words2 := (normalizeTitleWords title2).dedup
  if words1.length = 0 ∧ words2.length = 0 then true
  else if words1.length = 0 ∨ words2.length = 0 then false
  else
    let inter := words1.filter (fun w => words2.contains w)
    let union := (words1 ++ words2).dedup
    let similarity : ℚ :=
      if union.length > 0 then (inter.length : ℚ) / (union.length : ℚ) else 0
    similarity ≥ 7/10

/-! ### Generic association-list operations for JS `Map` keyed by other
key types (the preload cache is keyed by `Category`) -/

/-- JS `Map.get` for an arbitrary decidable key type. -/
def lookupBy {α β : Type} [DecidableEq α] (l : List (α × β)) (k : α) : Option β :=
  match l with
  | [] => none
  | (k', v) :: rest => if k' = k then some v else lookupBy rest k

/-- JS `Map.set` for an arbitrary decidable key type. -/
def setBy {α β : Type} [DecidableEq α] (l : List (α × β)) (k : α) (v : β) :
    List (α × β) :=
  match l with
  | [] => [(k, v)]
  | (k', v') :: rest =>
    if k' = k then (k', v) :: rest else (k', v') :: setBy rest k v

/-! ### Diversity engine (`src/utils/articleDiversity.ts`) -/

/-- Character-set Jaccard similarity of `calculateSimilarity`
(`articleDiversity.ts` lines 109–117).  For two empty strings JS yields
`0/0 = NaN`; here `0/0 = 0`, and both fail the caller's `> 0.8` test. -/
def calculateSimilarity (str1 str2 : String) : ℚ :=
  let set1 := str1.toList.dedup
  let set2 := str2.toList.dedup
  let inter := set1.filter (fun c => set2.contains c)
  let union := (set1 ++ set2).dedup
  (inter.length : ℚ) / (union.length : ℚ)

/-- JS `[a-z0-9]` character class. -/
def isLowerAlnum (c : Char) : Bool :=
  (97 ≤ c.toNat && c.toNat ≤ 122) || (48 ≤ c.toNat && c.toNat ≤ 57)

/-- The normalized title key of `removeDuplicateArticles`: lowercase,
strip everything outside `[a-z0-9]`, keep the first 50 characters. -/
def titleKey (a : Article) : String :=
  String.mk (((a.title.toList.map toLowerCh).filter isLowerAlnum).take 50)

/-- The duplicate test applied to two title keys inside
`removeDuplicateArticles`: `calculateSimilarity(titleKey, key) > 0.8`. -/
def similarKey (k1 k2 : String) : Bool :=
  calculateSimilarity k1 k2 > 8/10

/-- Accumulator of the `removeDuplicateArticles` loop: the insertion-ordered
`seen` map, the `uniqueArticles` output array, and (for the idempotence
analysis) whether any keep-the-longer-description replacement happened. -/
structure DedupState where
  seen : List (String × Article)
  unique : List Article
  replacedAny : Bool
  deriving Repr

/-- One iteration of the `articles.forEach` loop of
`removeDuplicateArticles` (`articleDiversity.ts` lines 72–101),
parameterized by the key-similarity test.  The inner `for … of seen`
stops at the first similar key; on a similar key with a strictly longer
description the existing article is replaced in place (JS
`indexOf`/assignment, and `seen.set` under the new key) — when the
existing article is no longer present (`indexOf === -1`) nothing
changes.  Otherwise the article is recorded as new. -/
def dedupStep (similar : String → String → Bool) (st : DedupState) (article : Article) :
    DedupState :=
  let key := titleKey article
  match st.seen.find? (fun e => similar key e.1) with
  | some e =>
    if article.description.length > e.2.description.length then
      match st.unique.findIdx? (fun b => b = e.2) with
      | some index =>
        { seen := setKey st.seen key article,
          unique := st.unique.set index article,
          replacedAny := true }
      | none => st
    else st
  | none =>
    { st with seen := setKey st.seen key article,
              unique := st.unique ++ [article] }

/-- The full loop of `removeDuplicateArticles`, exposing the final
accumulator. -/
def dedupRun (similar : String → String → Bool) (articles : List Article) : DedupState :=
  articles.foldl (dedupStep similar) ⟨[], [], false⟩

/-- `removeDuplicateArticles` (`articleDiversity.ts` lines 68–104). -/
def removeDuplicateArticles (articles : List Article) : List Article :=
  (dedupRun similarKey articles).unique

/-- Fisher–Yates swap step `[a[i], a[j]] = [a[j], a[i]]`; out-of-range
indices (never produced by the loop) leave the list unchanged. -/
def listSwap {α : Type} (l : List α) (i j : Nat) : List α :=
  match l[i]?, l[j]? with
  | some x, some y => (l.set i y).set j x
  | _, _ => l

/-- `shuffleArticles` (`articleDiversity.ts` lines 6–13): Fisher–Yates
over indices `length-1, …, 1`.  The source of randomness
`Math.floor(Math.random() * (i + 1))` is abstracted as `rand i % (i+1)`,
which ranges over exactly the same indices `0 … i`. -/
def shuffleArticles (articles : List Article) (rand : Nat → Nat) : List Article :=
  ((List.range' 1 (articles.length - 1)).reverse).foldl
    (fun shuffled i => listSwap shuffled i (rand i % (i + 1))) articles

/-- One step of the source grouping of `ensureSourceDiversity`
(`articleDiversity.ts` lines 22–29): append the article to its source's
queue, creating the queue on first appearance. -/
def pushGroup (gs : List (String × List Article)) (a : Article) :
    List (String × List Article) :=
  match lookupKey gs a.source with
  | some q => setKey gs a.source (q ++ [a])
  | none => gs ++ [(a.source, [a])]

/-- Group articles by `source` in first-appearance order (the JS `Map`
built by the `articles.forEach` of `ensureSourceDiversity`). -/
def groupBySource (articles : List Article) : List (String × List Article) :=
  articles.foldl pushGroup []

/-- One pass over the per-source queues: pop the head of every non-empty
queue, in source order.  The first pass is the `sources.forEach` of
`ensureSourceDiversity`; later passes are the iterations of its `while`
loop. -/
def takeHeads : List (String × List Article) →
    List Article × List (String × List Article)
  | [] => ([], [])
  | (s, []) :: gs =>
    let r := takeHeads gs
    (r.1, (s, []) :: r.2)
  | (s, a :: q) :: gs =>
    let r := takeHeads gs
    (a :: r.1, (s, q) :: r.2)

/-- Total number of queued articles. -/
def totalLen (gs : List (String × List Article)) : Nat :=
  (gs.map (fun g => g.2.length)).sum

theorem takeHeads_totalLen (gs : List (String × List Article)) :
    totalLen (takeHeads gs).2 + (takeHeads gs).1.length = totalLen gs := by
  induction gs with
  | nil => rfl
  | cons g gs ih =>
    obtain ⟨s, q⟩ := g
    cases q with
    | nil => simpa [takeHeads, totalLen] using ih
    | cons a q =>
      simp only [takeHeads, totalLen, List.map_cons, List.sum_cons, List.length_cons] at *
      omega

theorem takeHeads_emits_of_ne_nil (gs : List (String × List Article))
    (h : (takeHeads gs).1 ≠ []) : totalLen (takeHeads gs).2 < totalLen gs := by
  have hlen : 0 < (takeHeads gs).1.length := List.length_pos.mpr h
  have := takeHeads_totalLen gs
  omega

/-- The `while (hasMoreArticles …)` loop of `ensureSourceDiversity`
(`articleDiversity.ts` lines 50–60): repeat round-robin passes until a
pass pops nothing.  (The source's additional
`diverseArticles.length < articles.length` guard is equivalent: the
pass after all queues drain pops nothing.) -/
def roundRobin (gs : List (String × List Article)) : List Article :=
  let r := takeHeads gs
  if h : r.1 = [] then []
  else r.1 ++ roundRobin r.2
termination_by totalLen gs
decreasing_by exact takeHeads_emits_of_ne_nil gs h

/-- `ensureSourceDiversity` (`articleDiversity.ts` lines 18–63): group by
source; with fewer than `minSources` distinct sources shuffle; otherwise
emit one article per source (the `sources.forEach`) and then keep
draining the queues round-robin (the `while` loop). -/
def ensureSourceDiversity (articles : List Article) (minSources : Nat)
    (rand : Nat → Nat) : List Article :=
  if articles.isEmpty then []
  else
    let articlesBySource := groupBySource articles
    if articlesBySource.length < minSources then shuffleArticles articles rand
    else
      let r := takeHeads articlesBySource
      r.1 ++ roundRobin r.2

/-- The `uniqueArticles.sort` of `combineAndDiversifyArticles`: newest
first by `publishedAt`. -/
def sortByDateDesc (articles : List Article) : List Article :=
  articles.mergeSort (fun a b => decide (b.publishedAt ≤ a.publishedAt))

/-- `combineAndDiversifyArticles` (`articleDiversity.ts` lines 122–142):
flatten, deduplicate, sort newest-first, diversify with `minSources = 3`,
and truncate to `targetCount`. -/
def combineAndDiversifyArticles (articleArrays : List (List Article))
    (targetCount : Nat) (rand : Nat → Nat) : List Article :=
  let allArticles := articleArrays.flatten
  let uniqueArticles := removeDuplicateArticles allArticles
  let sorted := sortByDateDesc uniqueArticles
  let diverseArticles := ensureSourceDiversity sorted 3 rand
  diverseArticles.take targetCount

/-! ### Popularity ranking engine
(`src/services/popularityRankingService.ts`) -/

/-- JS `String.prototype.includes`. -/
def strIncludes (s pat : String) : Bool :=
  decide (List.IsInfix pat.toList s.toList)

/-- JS `toLowerCase` of a whole string (ASCII range). -/
def lowerStr (s : String) : String :=
  String.mk (s.toList.map toLowerCh)

/-- `PopularityRankingService.calculateRecencyScore` (lines 60–72): step
function of the article's age in hours. -/
def calculateRecencyScore (now publishedAt : Int) : ℚ :=
  let hoursAgo : ℚ := ((now - publishedAt : Int) : ℚ) / 3600000
  if hoursAgo ≤ 2 then 1
  else if hoursAgo ≤ 12 then 8/10
  else if hoursAgo ≤ 24 then 6/10
  else if hoursAgo ≤ 72 then 4/10
  else if hoursAgo ≤ 168 then 2/10
  else 1/10

/-- The engagement-indicator word list of `calculateEngagementScore`. -/
def engagementWords : List String :=
  ["breaking", "exclusive", "revealed", "shocking", "major",
   "announces", "launches", "new", "first", "record"]

/-- `PopularityRankingService.calculateEngagementScore` (lines 74–104).
JS `if (article.author)` is string truthiness, i.e. `author ≠ ""`. -/
def calculateEngagementScore (article : Article) : ℚ :=
  let title := lowerStr article.title
  let description := lowerStr article.description
  let engagementCount :=
    (engagementWords.filter
      (fun word => strIncludes title word || strIncludes description word)).length
  let score : ℚ := 1/2 + (engagementCount : ℚ) * (1/10)
  let titleLength := article.title.length
  let score := if 40 ≤ titleLength ∧ titleLength ≤ 80 then score + 2/10 else score
  let score := if article.urlToImage.isSome then score + 1/10 else score
  let score := if article.author ≠ "" then score + 1/10 else score
  min score 1

/-- `PopularityRankingService.calculateSourceCredibilityScore`
(lines 106–108) with the `sourceCredibility` table (lines 32–51). -/
def calculateSourceCredibilityScore (source : String) : ℚ :=
  if source = "BBC" then 95/100
  else if source = "Reuters" then 95/100
  else if source = "Associated Press" then 9/10
  else if source = "The Hindu" then 85/100
  else if source = "Times of India" then 8/10
  else if source = "Economic Times" then 85/100
  else if source = "TechCrunch" then 8/10
  else if source = "Ars Technica" then 85/100
  else if source = "The Verge" then 75/100
  else if source = "GitHub" then 9/10
  else if source = "Dev.to" then 7/10
  else if source = "Hacker News" then 8/10
  else if source = "ESPN" then 8/10
  else if source = "Nature" then 95/100
  else if source = "Science" then 95/100
  else if source = "MIT Technology Review" then 9/10
  else 1/2

/-- The `trendingKeywords` table (lines 20–29); categories without an
entry have no keywords. -/
def trendingKeywords : Category → List String
  | .INDIA => ["breaking", "parliament", "election", "modi", "congress",
               "bjp", "supreme court", "bollywood", "cricket", "startup"]
  | .TECH => ["ai", "artificial intelligence", "smartphone", "apple", "google",
              "microsoft", "meta", "tesla", "breakthrough", "innovation"]
  | .SOFTWARE => ["react", "javascript", "python", "github", "release",
                  "update", "security", "bug", "feature", "developer"]
  | .AI_ML => ["chatgpt", "openai", "machine learning", "neural network",
               "deep learning", "llm", "automation", "robot"]
  | .SPORTS => ["football", "cricket", "olympics", "world cup", "champion",
                "record", "goal", "victory", "tournament"]
  | .BUSINESS => ["stock", "market", "ipo", "revenue", "profit",
                  "acquisition", "merger", "ceo", "funding", "investment"]
  | .SCIENCE => ["research", "discovery", "study", "breakthrough", "climate",
                 "space", "nasa", "vaccine", "gene", "quantum"]
  | .STARTUPS => ["funding", "unicorn", "ipo", "valuation", "series",
                  "venture", "founder", "launch", "growth", "acquisition"]
  | _ => []

/-- `PopularityRankingService.calculateTrendingScore` (lines 110–120). -/
def calculateTrendingScore (article : Article) (category : Category) : ℚ :=
  let keywords := trendingKeywords category
  let title := lowerStr article.title
  let description := lowerStr article.description
  let matchCount :=
    (keywords.filter
      (fun keyword => strIncludes title keyword || strIncludes description keyword)).length
  min ((matchCount : ℚ) * (15/100)) 1

/-- The `categoryRelations` table of `calculateCategoryRelevanceScore`
(lines 127–134); categories without an entry relate to nothing. -/
def categoryRelations : Category → List Category
  | .TECH => [.SOFTWARE, .AI_ML, .WEB_DEV, .MOBILE_DEV]
  | .SOFTWARE => [.TECH, .AI_ML, .WEB_DEV]
  | .AI_ML => [.TECH, .SOFTWARE, .SCIENCE]
  | .INDIA => [.POLITICAL, .BUSINESS, .SPORTS]
  | .BUSINESS => [.STARTUPS, .TECH]
  | .STARTUPS => [.BUSINESS, .TECH]
  | _ => []

/-- `PopularityRankingService.calculateCategoryRelevanceScore`
(lines 122–145). -/
def calculateCategoryRelevanceScore (article : Article) (targetCategory : Category) : ℚ :=
  if article.category = targetCategory then 1
  else
    let relatedCategories := categoryRelations targetCategory
    if relatedCategories.contains article.category then 6/10
    else if targetCategory = Category.ALL then 8/10
    else 1/10

/-- The popularity metrics attached to an article (the
`PopularityMetrics` interface). -/
structure PopularityMetrics where
  recencyScore : ℚ
  engagementScore : ℚ
  sourceCredibilityScore : ℚ
  trendingScore : ℚ
  categoryRelevanceScore : ℚ
  overallScore : ℚ
  deriving DecidableEq, Repr

/-- An article together with its metrics (the `EnhancedArticle`
interface; the JS object spread is the `article` component here). -/
structure EnhancedArticle where
  article : Article
  popularityMetrics : PopularityMetrics
  deriving DecidableEq, Repr

/-- `PopularityRankingService.enhanceArticleWithPopularity`
(lines 147–174): weighted overall score 25% recency + 20% engagement +
15% credibility + 25% trending + 15% relevance. -/
def enhanceArticleWithPopularity (now : Int) (article : Article)
    (targetCategory : Category) : EnhancedArticle :=
  let recencyScore := calculateRecencyScore now article.publishedAt
  let engagementScore := calculateEngagementScore article
  let sourceCredibilityScore := calculateSourceCredibilityScore article.source
  let trendingScore := calculateTrendingScore article targetCategory
  let categoryRelevanceScore := calculateCategoryRelevanceScore article targetCategory
  let overallScore :=
    recencyScore * (25/100) + engagementScore * (20/100) +
    sourceCredibilityScore * (15/100) + trendingScore * (25/100) +
    categoryRelevanceScore * (15/100)
  { article := article,
    popularityMetrics :=
      { recencyScore := recencyScore,
        engagementScore := engagementScore,
        sourceCredibilityScore := sourceCredibilityScore,
        trendingScore := trendingScore,
        categoryRelevanceScore := categoryRelevanceScore,
        overallScore := overallScore } }

/-- Shorthand for the overall score an article receives. -/
def overallScore (now : Int) (article : Article) (targetCategory : Category) : ℚ :=
  (enhanceArticleWithPopularity now article targetCategory).popularityMetrics.overallScore

/-- `PopularityRankingService.rankArticlesByPopularity` (lines 176–183):
enhance every article, then sort by overall score descending. -/
def rankArticlesByPopularity (now : Int) (articles : List Article)
    (category : Category) : List EnhancedArticle :=
  (articles.map (fun a => enhanceArticleWithPopularity now a category)).mergeSort
    (fun a b => decide (b.popularityMetrics.overallScore ≤ a.popularityMetrics.overallScore))

/-! ### Mock data service (`src/services/mockDataService.ts`) -/

/-- The `baseArticles` array of `MockDataService.getMockArticles`; every
`Date.now() - k` publish time becomes `now - k`.  The description of
`mock_india_6` contains the source file's literal mojibake bytes
`â‚¹` for the rupee sign. -/
def baseArticles (now : Int) : List Article :=
  [ { id := "mock_india_1",
      title := "Breaking: Parliament Winter Session Begins with Key Economic Bills",
      description := "The winter session of Parliament has commenced with the government planning to introduce several crucial economic reform bills including the new banking regulation act.",
      url := "https://www.thehindu.com/",
      urlToImage := some "https://picsum.photos/400/300?random=1",
      author := "Political Correspondent", source := "The Hindu",
      publishedAt := now - 1800000, category := .INDIA,
      tags := ["parliament", "economic-reforms", "breaking"] },
    { id := "mock_india_2",
      title := "Major Announcement: India Launches Digital Rupee Pilot in 15 Cities",
      description := "Reserve Bank of India expands the digital currency pilot program to major metropolitan cities, marking a significant step towards cashless economy.",
      url := "https://economictimes.indiatimes.com/",
      urlToImage := some "https://picsum.photos/400/300?random=2",
      author := "Finance Reporter", source := "Economic Times",
      publishedAt := now - 3600000, category := .INDIA,
      tags := ["digital-rupee", "rbi", "fintech"] },
    { id := "mock_india_3",
      title := "Exclusive: Indian Space Program Sets New World Record with 104 Satellites",
      description := "ISRO successfully launches 104 satellites in a single mission, breaking the previous world record and establishing India as a major space power.",
      url := "https://www.isro.gov.in/",
      urlToImage := some "https://picsum.photos/400/300?random=3",
      author := "Space Correspondent", source := "ISRO News",
      publishedAt := now - 7200000, category := .INDIA,
      tags := ["isro", "satellites", "space", "record"] },
    { id := "mock_1",
      title := "NewsHub - Multi-Source News Aggregator",
      description := "NewsHub combines the best of Dev.to, Hacker News, NewsAPI, and RSS feeds to deliver a comprehensive news reading experience.",
      url := "https://github.com/", urlToImage := none,
      author := "NewsHub Team", source := "NewsHub Demo",
      publishedAt := now, category := .SOFTWARE,
      tags := ["react-native", "news", "aggregator"] },
    { id := "mock_2",
      title := "Understanding React Native Performance",
      description := "Learn how to optimize your React Native apps for better performance, including memory management, rendering optimizations, and network efficiency.",
      url := "https://reactnative.dev/docs/performance", urlToImage := none,
      author := "Tech Expert", source := "Dev Community",
      publishedAt := now - 3600000, category := .SOFTWARE,
      tags := ["react-native", "performance", "optimization"] },
    { id := "mock_3",
      title := "Latest in JavaScript Development",
      description := "Explore the newest features in JavaScript, including ES2024 updates, new APIs, and best practices for modern web development.",
      url := "https://developer.mozilla.org/en-US/docs/Web/JavaScript", urlToImage := none,
      author := "JS Developer", source := "JavaScript Weekly",
      publishedAt := now - 7200000, category := .TECH,
      tags := ["javascript", "es2024", "web-development"] },
    { id := "mock_4",
      title := "AI Revolution in Software Development",
      description := "How artificial intelligence is transforming the way we write, test, and deploy code. From GitHub Copilot to automated testing.",
      url := "https://github.com/features/copilot", urlToImage := none,
      author := "AI Researcher", source := "Tech Insights",
      publishedAt := now - 10800000, category := .AI_ML,
      tags := ["ai", "machine-learning", "coding-tools"] },
    { id := "mock_5",
      title := "Mobile App Development Trends 2024",
      description := "The latest trends in mobile app development, including cross-platform frameworks, progressive web apps, and emerging technologies.",
      url := "https://flutter.dev/", urlToImage := none,
      author := "Mobile Expert", source := "Mobile Dev Weekly",
      publishedAt := now - 14400000, category := .MOBILE_DEV,
      tags := ["mobile", "trends", "cross-platform"] },
    { id := "mock_6",
      title := "India Tech News: Startup Ecosystem Growth",
      description := "Indian startup ecosystem continues to show remarkable growth with new unicorns and increased investor interest in technology sectors.",
      url := "https://www.startupindia.gov.in/", urlToImage := none,
      author := "Business Reporter", source := "Tech India Today",
      publishedAt := now - 18000000, category := .INDIA,
      tags := ["india", "startup", "business"] },
    { id := "mock_7",
      title := "Breaking: Major Security Update Released",
      description := "Critical security patches have been released for popular frameworks. Developers advised to update immediately to prevent vulnerabilities.",
      url := "https://github.com/advisories", urlToImage := none,
      author := "Security Team", source := "Security Alert",
      publishedAt := now - 1800000, category := .BREAKING,
      tags := ["security", "update", "breaking"] },
    { id := "mock_8",
      title := "Sports Tech: Data Analytics in Modern Games",
      description := "How technology and data analytics are revolutionizing sports performance, fan engagement, and game strategies across different sports.",
      url := "https://www.espn.com/", urlToImage := none,
      author := "Sports Tech Writer", source := "Sports Innovation",
      publishedAt := now - 21600000, category := .SPORTS,
      tags := ["sports", "analytics", "technology"] },
    { id := "mock_9",
      title := "Global Tech Market Analysis",
      description := "Comprehensive analysis of the global technology market, including emerging markets, investment trends, and future predictions.",
      url := "https://techcrunch.com/", urlToImage := none,
      author := "Market Analyst", source := "World Tech Report",
      publishedAt := now - 25200000, category := .WORLD,
      tags := ["global", "market", "analysis"] },
    { id := "mock_10",
      title := "Business Innovation: Digital Transformation",
      description := "How businesses are leveraging digital transformation to improve efficiency, customer experience, and competitive advantage.",
      url := "https://www.microsoft.com/", urlToImage := none,
      author := "Business Expert", source := "Business Innovation",
      publishedAt := now - 28800000, category := .BUSINESS,
      tags := ["business", "digital", "transformation"] },
    { id := "mock_11",
      title := "10 Easy Weeknight Dinner Recipes",
      description := "Quick and delicious dinner ideas that can be prepared in 30 minutes or less, perfect for busy weeknights.",
      url := "https://www.allrecipes.com/", urlToImage := none,
      author := "Chef Maria", source := "Cooking Today",
      publishedAt := now - 32400000, category := .COOKING,
      tags := ["quick-meals", "dinner", "family-friendly"] },
    { id := "mock_12",
      title := "The Science of Perfect Pasta",
      description := "Understanding the chemistry behind cooking pasta al dente and the best techniques for achieving restaurant-quality results at home.",
      url := "https://www.seriouseats.com/", urlToImage := none,
      author := "Food Scientist", source := "Culinary Science",
      publishedAt := now - 36000000, category := .COOKING,
      tags := ["pasta", "technique", "science"] },
    { id := "mock_india_4",
      title := "Breaking: Supreme Court Delivers Historic Verdict on Privacy Rights",
      description := "In a landmark judgment, the Supreme Court unanimously rules that privacy is a fundamental right, impacting digital governance and data protection laws.",
      url := "https://www.thehindu.com/",
      urlToImage := some "https://picsum.photos/400/300?random=4",
      author := "Legal Correspondent", source := "The Hindu",
      publishedAt := now - 900000, category := .INDIA,
      tags := ["supreme-court", "privacy", "fundamental-rights", "breaking"] },
    { id := "mock_startup_1",
      title := "Exclusive: Bengaluru Startup Raises $100M Series C, Becomes New Unicorn",
      description := "FinTech startup revolutionizing digital payments for rural India secures massive funding round led by Sequoia Capital and Tiger Global.",
      url := "https://economictimes.indiatimes.com/",
      urlToImage := some "https://picsum.photos/400/300?random=5",
      author := "Startup Reporter", source := "Economic Times",
      publishedAt := now - 5400000, category := .STARTUPS,
      tags := ["unicorn", "funding", "fintech", "bengaluru"] },
    { id := "mock_tech_popular",
      title := "Revolutionary: Google Announces Breakthrough in Quantum Computing",
      description := "Google claims quantum supremacy with new 70-qubit processor, solving complex problems in seconds that would take classical computers millennia.",
      url := "https://techcrunch.com/",
      urlToImage := some "https://picsum.photos/400/300?random=6",
      author := "Tech Reporter", source := "TechCrunch",
      publishedAt := now - 10800000, category := .TECH,
      tags := ["google", "quantum", "breakthrough", "computing"] },
    { id := "mock_ai_trending",
      title := "ChatGPT-4 Turbo Launches: New AI Model Shows 40% Performance Boost",
      description := "OpenAI releases upgraded version of ChatGPT with enhanced reasoning capabilities and reduced response times, setting new industry benchmarks.",
      url := "https://openai.com/",
      urlToImage := some "https://picsum.photos/400/300?random=7",
      author := "AI Specialist", source := "OpenAI Blog",
      publishedAt := now - 14400000, category := .AI_ML,
      tags := ["chatgpt", "openai", "ai-model", "performance"] },
    { id := "mock_india_5",
      title := "Breaking: India GDP Growth Exceeds Expectations at 7.2%",
      description := "India\x27s economy shows robust growth in Q3, driven by manufacturing and services sectors, outpacing global economic forecasts.",
      url := "https://economictimes.indiatimes.com/",
      urlToImage := some "https://picsum.photos/400/300?random=8",
      author := "Economic Editor", source := "Economic Times",
      publishedAt := now - 2700000, category := .INDIA,
      tags := ["gdp", "economy", "growth", "breaking"] },
    { id := "mock_india_6",
      title := "Major: PM Modi Launches National Health Mission 2.0",
      description := "Prime Minister announces ambitious healthcare reforms targeting rural areas, with â‚¹2 lakh crore investment over 5 years.",
      url := "https://www.pmindia.gov.in/",
      urlToImage := some "https://picsum.photos/400/300?random=9",
      author := "Health Correspondent", source := "PIB India",
      publishedAt := now - 4500000, category := .INDIA,
      tags := ["healthcare", "policy", "modi", "rural-development"] },
    { id := "mock_india_7",
      title := "Exclusive: Indian Railways Unveils High-Speed Bullet Train Timeline",
      description := "Mumbai-Ahmedabad bullet train project accelerates with Japanese technology, expected completion by 2028.",
      url := "https://indianrailways.gov.in/",
      urlToImage := some "https://picsum.photos/400/300?random=10",
      author := "Transport Reporter", source := "Railway News",
      publishedAt := now - 9000000, category := .INDIA,
      tags := ["railways", "bullet-train", "infrastructure", "exclusive"] },
    { id := "mock_india_8",
      title := "Breaking: Chandrayaan-3 Successfully Lands on Moon\x27s South Pole",
      description := "ISRO achieves historic milestone as India becomes fourth country to land on moon, first to reach lunar south pole.",
      url := "https://www.isro.gov.in/",
      urlToImage := some "https://picsum.photos/400/300?random=11",
      author := "Space Editor", source := "ISRO Official",
      publishedAt := now - 12600000, category := .INDIA,
      tags := ["chandrayaan", "moon-landing", "isro", "breaking", "space"] },
    { id := "mock_india_9",
      title := "Major: India-UK FTA Talks Enter Final Phase",
      description := "Trade negotiations between India and UK reach conclusive stage, expected to boost bilateral trade by $100 billion.",
      url := "https://www.thehindu.com/",
      urlToImage := some "https://picsum.photos/400/300?random=12",
      author := "Trade Correspondent", source := "The Hindu",
      publishedAt := now - 16200000, category := .INDIA,
      tags := ["trade", "uk", "fta", "bilateral", "economy"] } ]

/-- `MockDataService.getCategoryName`. -/
def getCategoryName : Category → String
  | .SOFTWARE => "Software Development"
  | .TECH => "Technology"
  | .AI_ML => "AI & Machine Learning"
  | .WEB_DEV => "Web Development"
  | .MOBILE_DEV => "Mobile Development"
  | .POLITICAL => "Political News"
  | .INDIA => "India News"
  | .SPORTS => "Sports News"
  | .BUSINESS => "Business News"
  | .WORLD => "World News"
  | .BREAKING => "Breaking News"
  | .SCIENCE => "Science News"
  | .STARTUPS => "Startup News"
  | .COOKING => "Cooking & Food"
  | .ALL => "All News"

/-- `MockDataService.getMockArticles`: filter `baseArticles` by category
(`ALL` keeps everything), substitute three renamed generic articles when
the category has none, and truncate to `limit`. -/
def getMockArticles (category : Category) (limit : Nat) (now : Int) : ServiceResponse :=
  let base := baseArticles now
  let filteredArticles :=
    if category ≠ Category.ALL then base.filter (fun a => a.category = category)
    else base
  let filteredArticles :=
    if filteredArticles.length = 0 then
      (base.take 3).enum.map (fun p =>
        { p.2 with
          category := category,
          id := "mock_" ++ category.toStr ++ "_" ++ p.2.id ++ "_" ++
                toString p.1 ++ "_" ++ toString now,
          title := getCategoryName category ++ ": " ++ p.2.title })
    else filteredArticles
  let limitedArticles := filteredArticles.take limit
  { data := limitedArticles,
    source := "Mock Data Service (Demo Mode)",
    timestamp := now,
    hasMore := filteredArticles.length > limit,
    totalResults := filteredArticles.length }

/-! ### Error handler / orchestrator (`src/services/preloadingService.ts`
lines 240–629: the `ErrorHandler` class) -/

/-- A `CacheEntry<ServiceResponse<Article[]>>` of the error handler. -/
structure CacheEntry where
  data : ServiceResponse
  timestamp : Int
  ttl : Int
  deriving DecidableEq, Repr

/-- A per-service slot of the `rateLimits` map. -/
structure RateData where
  count : Nat
  resetTime : Int
  deriving DecidableEq, Repr

/-- An entry of the `errorLog` (the `ErrorInfo` interface; the JS
`Error` object is its message string here). -/
structure ErrorInfo where
  service : String
  error : String
  timestamp : Int
  retryCount : Nat
  deriving DecidableEq, Repr

/-- The mutable state of the `ErrorHandler` singleton: the in-memory
cache, the durable `AsyncStorage` mirror (keyed as in memory; the
`news_cache_` prefix is dropped), the rate-limit counters, and the error
log. -/
structure EHState where
  cache : List (String × CacheEntry)
  storage : List (String × CacheEntry)
  rateLimits : List (String × RateData)
  errorLog : List ErrorInfo
  deriving Repr

/-- The empty initial state of the handler. -/
def EHState.empty : EHState := ⟨[], [], [], []⟩

/-- Retry configuration: `MAX_RETRIES = 1`. -/
def MAX_RETRIES : Nat := 1

/-- Cache TTL: 15 minutes in milliseconds. -/
def CACHE_TTL : Int := 15 * 60 * 1000

/-- `ErrorHandler.checkRateLimit` (lines 474–494).  JS mutates the stored
`serviceData` object in place when the window has elapsed, so the map
reflects the reset even before `set` is reached; the deny path performs
no other update. -/
def checkRateLimit (st : EHState) (now : Int) (service : String)
    (maxRequests : Nat) (windowMs : Int) : Bool × EHState :=
  let stored := lookupKey st.rateLimits service
  let serviceData := stored.getD ⟨0, now + windowMs⟩
  let reset := decide (now > serviceData.resetTime)
  let serviceData : RateData := if reset then ⟨0, now + windowMs⟩ else serviceData
  let rl := if reset && stored.isSome then setKey st.rateLimits service serviceData
            else st.rateLimits
  if serviceData.count ≥ maxRequests then (false, { st with rateLimits := rl })
  else
    let incremented : RateData := ⟨serviceData.count + 1, serviceData.resetTime⟩
    (true, { st with rateLimits := setKey rl service incremented })

/-- `ErrorHandler.getCachedData` (lines 510–522): a fresh entry is
returned; an expired entry is deleted from the in-memory cache and
treated as absent. -/
def getCachedData (st : EHState) (now : Int) (key : String) :
    Option CacheEntry × EHState :=
  match lookupKey st.cache key with
  | some cached =>
    if now - cached.timestamp < cached.ttl then (some cached, st)
    else (none, { st with cache := eraseKey st.cache key })
  | none => (none, st)

/-- `ErrorHandler.setCachedData` (lines 499–508) together with its
`persistToStorage` mirror write. -/
def setCachedData (st : EHState) (now : Int) (key : String)
    (data : ServiceResponse) (ttl : Int) : EHState :=
  let entry : CacheEntry := ⟨data, now, ttl⟩
  { st with cache := setKey st.cache key entry,
            storage := setKey st.storage key entry }

/-- `ErrorHandler.loadCachedDataFromStorage` (lines 527–544): a fresh
durable entry is copied into the in-memory cache and returned; an
expired one is removed from storage. -/
def loadCachedDataFromStorage (st : EHState) (now : Int) (key : String) :
    Option CacheEntry × EHState :=
  match lookupKey st.storage key with
  | some data =>
    if now - data.timestamp < data.ttl then
      (some data, { st with cache := setKey st.cache key data })
    else (none, { st with storage := eraseKey st.storage key })
  | none => (none, st)

/-- `ErrorHandler.logError` (lines 557–571): append, keep the last 100. -/
def logError (log : List ErrorInfo) (service : String) (error : String)
    (now : Int) (retryCount : Nat) : List ErrorInfo :=
  let log := log ++ [⟨service, error, now, retryCount⟩]
  if log.length > 100 then log.drop 1 else log

/-- `ErrorHandler.executeWithRetry` (lines 443–469), with a structural
fuel argument standing for the well-founded measure
`MAX_RETRIES - retryCount`; the fuel is always positive when the
function is entered (see `executeWithRetry`), so the `0` case is dead.
Each invocation of the JS thunk `call` may give a different outcome, so
`call` takes the current `retryCount`.  The `sleep` between retries only
delays; time is the constant `now` for the whole orchestrated call. -/
def executeWithRetryGo (call : Nat → Except String ServiceResponse) (now : Int)
    (cacheKey : String) : Nat → Nat → EHState →
    Except String ServiceResponse × EHState
  | _, 0, st => (.error "out of fuel", st)
  | retryCount, fuel + 1, st =>
    let r := getCachedData st now cacheKey
    match r.1 with
    | some cachedData => (.ok cachedData.data, r.2)
    | none =>
      match call retryCount with
      | .ok result => (.ok result, setCachedData r.2 now cacheKey result CACHE_TTL)
      | .error e =>
        if retryCount < MAX_RETRIES then
          executeWithRetryGo call now cacheKey (retryCount + 1) fuel r.2
        else (.error e, r.2)

/-- `ErrorHandler.executeWithRetry` entered at a given `retryCount`. -/
def executeWithRetry (call : Nat → Except String ServiceResponse) (st : EHState)
    (now : Int) (cacheKey : String) (retryCount : Nat) :
    Except String ServiceResponse × EHState :=
  executeWithRetryGo call now cacheKey retryCount (MAX_RETRIES + 1 - retryCount) st

/-- `ErrorHandler.getEmptyFallbackData` (lines 360–396): the two
synthetic NewsHub placeholder articles, wrapped in a labelled response.
The JS objects carry the literal category strings `'software'` and
`'tech'`. -/
def getEmptyFallbackData (serviceName : String) (now : Int) : ServiceResponse :=
  let sampleArticles : List Article :=
    [ { id := "sample_1",
        title := "NewsHub - Your Multi-Source News Reader",
        description := "Stay informed with articles from multiple trusted sources. Connect to the internet for the latest news updates.",
        url := "https://example.com", urlToImage := none,
        author := "NewsHub Team", source := "NewsHub",
        publishedAt := now, category := .SOFTWARE,
        tags := ["sample", "offline"] },
      { id := "sample_2",
        title := "Connect to Internet for Latest News",
        description := "This app aggregates news from Dev.to, Hacker News, NewsAPI, and other sources. Please check your internet connection for fresh content.",
        url := "https://example.com", urlToImage := none,
        author := "NewsHub", source := "NewsHub",
        publishedAt := now - 3600000, category := .TECH,
        tags := ["sample", "info"] } ]
  { data := sampleArticles,
    source := serviceName ++ " (Offline - Sample Data)",
    timestamp := now,
    hasMore := false,
    totalResults := sampleArticles.length }

/-- `ErrorHandler.getMockDataFallback` (lines 401–438): category-flavoured
mock data when the service name mentions `category`, generic `ALL` mock
data otherwise.  The surrounding `try/catch` (returning `null`) is dead
here because `getMockArticles` is total. -/
def getMockDataFallback (serviceName : String) (now : Int) : Option ServiceResponse :=
  if strIncludes serviceName "category" || strIncludes serviceName "Category" then
    let category : Category :=
      if strIncludes serviceName "Software" then .SOFTWARE
      else if strIncludes serviceName "India" then .INDIA
      else if strIncludes serviceName "Sports" then .SPORTS
      else if strIncludes serviceName "Breaking" then .BREAKING
      else if strIncludes serviceName "Tech" then .TECH
      else if strIncludes serviceName "Business" then .BUSINESS
      else if strIncludes serviceName "World" then .WORLD
      else if strIncludes serviceName "Political" then .POLITICAL
      else .ALL
    let mockResponse := getMockArticles category 15 now
    some { mockResponse with source := mockResponse.source ++ " (Network Unavailable)" }
  else
    let mockResponse := getMockArticles .ALL 10 now
    some { mockResponse with source := "Demo Data (" ++ serviceName ++ " Unavailable)" }

/-- The `for` loop over `fallbackCalls` in `executeWithFallback`
(lines 305–320): rate-limited fallbacks are skipped, failures are logged,
the first success is cached and returned.  `lastError` is recorded in
the source but never read after the loop, so it is not tracked. -/
def fallbackLoop (cacheKey serviceName : String) (now : Int) :
    List (Nat → Except String ServiceResponse) → Nat → EHState →
    Option ServiceResponse × EHState
  | [], _, st => (none, st)
  | call :: rest, i, st =>
    let fallbackName := serviceName ++ "_Fallback_" ++ toString (i + 1)
    let c := checkRateLimit st now fallbackName 100 (60 * 60 * 1000)
    if c.1 then
      match executeWithRetry call c.2 now cacheKey 0 with
      | (.ok result, st) =>
        (some result, setCachedData st now cacheKey result CACHE_TTL)
      | (.error e, st) =>
        fallbackLoop cacheKey serviceName now rest (i + 1)
          { st with errorLog := logError st.errorLog fallbackName e now 0 }
    else fallbackLoop cacheKey serviceName now rest (i + 1) c.2

/-- `ErrorHandler.executeWithFallback` (lines 279–354).  A `.error`
result would correspond to an uncaught JS exception escaping the
function; every provider outcome is `Except`-valued, matching the JS
thunks that may throw. -/
def executeWithFallback (primaryCall : Nat → Except String ServiceResponse)
    (fallbackCalls : List (Nat → Except String ServiceResponse))
    (cacheKey : String) (serviceName : String) (st : EHState) (now : Int) :
    Except String ServiceResponse × EHState :=
  let r0 := getCachedData st now cacheKey
  let cachedData := r0.1
  let c := checkRateLimit r0.2 now serviceName 100 (60 * 60 * 1000)
  let primaryOutcome : Option ServiceResponse × EHState :=
    if c.1 then
      match executeWithRetry primaryCall c.2 now cacheKey 0 with
      | (.ok result, st) =>
        (some result, setCachedData st now cacheKey result CACHE_TTL)
      | (.error e, st) =>
        (none, { st with errorLog := logError st.errorLog serviceName e now 0 })
    else (none, c.2)
  match primaryOutcome with
  | (some result, st) => (.ok result, st)
  | (none, st) =>
    match fallbackLoop cacheKey serviceName now fallbackCalls 0 st with
    | (some result, st) => (.ok result, st)
    | (none, st) =>
      match cachedData with
      | some cached => (.ok cached.data, st)
      | none =>
        match lookupKey st.cache cacheKey with
        | some expiredCache => (.ok expiredCache.data, st)
        | none =>
          match loadCachedDataFromStorage st now cacheKey with
          | (some persistentCache, st) => (.ok persistentCache.data, st)
          | (none, st) =>
            match getMockDataFallback serviceName now with
            | some mockData => (.ok mockData, st)
            | none => (.ok (getEmptyFallbackData serviceName now), st)

/-! ### Preload scheduler (`src/services/preloadingService.ts` lines
1–240: the `PreloadingService` class) -/

/-- An entry of the scheduler's `preloadedCache`: ranked articles with
their fetch time and source label. -/
structure PreloadEntry where
  articles : List EnhancedArticle
  timestamp : Int
  source : String
  deriving Repr

/-- The scheduler's cache, keyed by category. -/
def PreloadCache : Type := List (Category × PreloadEntry)

/-- The scheduler's `CACHE_TTL`: 15 minutes. -/
def PRELOAD_CACHE_TTL : Int := 15 * 60 * 1000

/-- `PreloadingService.isCacheValid` (lines 161–163). -/
def isCacheValid (now timestamp : Int) : Bool :=
  decide (now - timestamp < PRELOAD_CACHE_TTL)

/-- Response of the scheduler; its data are the enhanced (ranked)
articles the JS code stores and returns under the `Article[]` type. -/
structure PSResponse where
  data : List EnhancedArticle
  source : String
  timestamp : Int
  hasMore : Bool
  totalResults : Nat
  deriving Repr

/-- The fresh-load half of `PreloadingService.getArticles` (lines
108–144); `cached` is the possibly stale entry read at the top of the
function, reused by the error path. -/
def PreloadingService.getArticlesFresh (pc : PreloadCache) (now : Int)
    (category : Category) (fetch : Except String ServiceResponse)
    (cached : Option PreloadEntry) :
    Except String PSResponse × PreloadCache :=
  match fetch with
  | .ok response =>
    if response.data.length > 0 then
      let rankedArticles := rankArticlesByPopularity now response.data category
      let pc := setBy pc category ⟨rankedArticles, now, response.source⟩
      (.ok { data := rankedArticles, source := response.source,
             timestamp := response.timestamp, hasMore := response.hasMore,
             totalResults := response.totalResults }, pc)
    else
      (.ok { data := [], source := response.source,
             timestamp := response.timestamp, hasMore := response.hasMore,
             totalResults := response.totalResults }, pc)
  | .error e =>
    match cached with
    | some c =>
      (.ok { data := c.articles, source := c.source ++ " (Offline)",
             timestamp := c.timestamp, hasMore := false,
             totalResults := c.articles.length }, pc)
    | none => (.error e, pc)

/-- `PreloadingService.getArticles` (lines 91–145).  The network fetch
`networkService.getArticles(category, 20)` is the parameter `fetch` (an
`Except`, since it may reject); returned enhanced articles are plain
articles in JS, so the empty-data passthrough branch re-wraps the
response with its (empty) data. -/
def PreloadingService.getArticles (pc : PreloadCache) (now : Int)
    (category : Category) (fetch : Except String ServiceResponse) :
    Except String PSResponse × PreloadCache :=
  let cached := lookupBy pc category
  match cached with
  | some c =>
    if isCacheValid now c.timestamp then
      (.ok { data := c.articles, source := c.source ++ " (Cached)",
             timestamp := c.timestamp, hasMore := true,
             totalResults := c.articles.length }, pc)
    else
      PreloadingService.getArticlesFresh pc now category fetch (some c)
  | none => PreloadingService.getArticlesFresh pc now category fetch none

/-! ### Computational twins of the ℚ-valued similarity tests

`Rat` multiplication and division are not kernel-reducible, so concrete
runs are evaluated through cross-multiplied `Nat` comparisons proved
equal to the source-faithful ℚ definitions. -/

theorem ratio_ge_iff (i u : ℕ) (hu : 0 < u) :
    ((7:ℚ)/10 ≤ (i:ℚ)/(u:ℚ)) ↔ 7 * u ≤ 10 * i := by
  rw [div_le_div_iff₀ (by norm_num) (by exact_mod_cast hu : (0:ℚ) < (u:ℚ))]
  constructor <;> intro h
  · have h2 : (7 * u : ℚ) ≤ (10 * i : ℚ) := by linarith
    exact_mod_cast h2
  · have h2 : (7 * u : ℚ) ≤ (10 * i : ℚ) := by exact_mod_cast h
    linarith

theorem ratio_gt_iff (i u : ℕ) (hu : 0 < u) :
    ((8:ℚ)/10 < (i:ℚ)/(u:ℚ)) ↔ 8 * u < 10 * i := by
  rw [div_lt_div_iff₀ (by norm_num) (by exact_mod_cast hu : (0:ℚ) < (u:ℚ))]
  constructor <;> intro h
  · have h2 : (8 * u : ℚ) < (10 * i : ℚ) := by linarith
    exact_mod_cast h2
  · have h2 : (8 * u : ℚ) < (10 * i : ℚ) := by exact_mod_cast h
    linarith

/-- Cross-multiplied form of the `isSimilarTitle` threshold test. -/
def isSimilarTitleC (title1 title2 : String) : Bool :=
  let words1 := (normalizeTitleWords title1).dedup
  let words2 := (normalizeTitleWords title2).dedup
  if words1.length = 0 ∧ words2.length = 0 then true
  else if words1.length = 0 ∨ words2.length = 0 then false
  else
    let inter := words1.filter (fun w => words2.contains w)
    let union := (words1 ++ words2).dedup
    7 * union.length ≤ 10 * inter.length

theorem isSimilarTitle_eq_cross (title1 title2 : String) :
    isSimilarTitle title1 title2 = isSimilarTitleC title1 title2 := by
  unfold isSimilarTitle isSimilarTitleC
  dsimp only
  split_ifs with h0 h1 h2
  · rfl
  · rfl
  · have hne : (normalizeTitleWords title1).dedup ≠ [] := by
      intro h
      exact h1 (Or.inl (by rw [h]; rfl))
    rw [decide_eq_decide, ge_iff_le]
    exact ratio_ge_iff _ _ h2
  · exfalso
    apply h2
    have hne : ((normalizeTitleWords title1).dedup ++
        (normalizeTitleWords title2).dedup).dedup ≠ [] := by
      intro h
      rw [List.dedup_eq_nil, List.append_eq_nil] at h
      exact h1 (Or.inl (List.length_eq_zero.mpr h.1))
    exact List.length_pos.mpr hne

/-- Cross-multiplied form of the `calculateSimilarity … > 0.8` duplicate
test (`0/0 = 0` and `0 > 0` agree on the degenerate empty-key case). -/
def similarKeyC (k1 k2 : String) : Bool :=
  let set1 := k1.toList.dedup
  let set2 := k2.toList.dedup
  let inter := set1.filter (fun c => set2.contains c)
  let union := (set1 ++ set2).dedup
  8 * union.length < 10 * inter.length

theorem similarKey_aux (s1 s2 : List Char) :
    decide ((8:ℚ)/10 <
        ((s1.filter (fun c => s2.contains c)).length : ℚ) /
          (((s1 ++ s2).dedup).length : ℚ)) =
      decide (8 * ((s1 ++ s2).dedup).length <
        10 * (s1.filter (fun c => s2.contains c)).length) := by
  rcases eq_or_ne s1 [] with h1 | h1
  · subst h1
    simp
    norm_num
  · have hu : 0 < ((s1 ++ s2).dedup).length := by
      rw [List.length_pos]
      intro h
      rw [List.dedup_eq_nil, List.append_eq_nil] at h
      exact h1 h.1
    rw [decide_eq_decide]
    exact ratio_gt_iff _ _ hu

theorem similarKey_eq_cross : similarKey = similarKeyC := by
  funext k1 k2
  unfold similarKey similarKeyC calculateSimilarity
  dsimp only
  exact similarKey_aux k1.toList.dedup k2.toList.dedup

theorem dedupRun_eq_cross (articles : List Article) :
    dedupRun similarKey articles = dedupRun similarKeyC articles := by
  rw [similarKey_eq_cross]

/-! ### Claim C7 — the Jaccard duplicate test on the two title pairs -/

/-- Claim C7, counterexample: contrary to the claim, the titles
"Parliament Winter Session Begins" and "Parliament Winter Session
Commences" are NOT classified as duplicates by the word-overlap test:
their Jaccard similarity is 3/5 = 0.6, below the 0.70 threshold. -/
theorem claim7_counterexample :
    isSimilarTitle "Parliament Winter Session Begins"
      "Parliament Winter Session Commences" = false := by
  rw [isSimilarTitle_eq_cross]; decide

/-- Claim C7, amended: under the deduplication engine's duplicate test
neither pair of titles is classified as duplicates — "Parliament Winter
Session Begins" vs "Parliament Winter Session Commences" has word-set
Jaccard similarity 3/5, below the ≥ 0.70 threshold, and "Parliament
Winter Session Begins" vs "Supreme Court Ruling on Privacy" has
similarity 0. -/
theorem claim7_amended :
    isSimilarTitle "Parliament Winter Session Begins"
      "Parliament Winter Session Commences" = false ∧
    isSimilarTitle "Parliament Winter Session Begins"
      "Supreme Court Ruling on Privacy" = false := by
  rw [isSimilarTitle_eq_cross, isSimilarTitle_eq_cross]
  exact ⟨by decide, by decide⟩

/-! ### Claim C2 — the rate limiter -/

theorem lookupKey_setKey {β : Type} (l : List (String × β)) (k : String) (v : β) :
    lookupKey (setKey l k v) k = some v := by
  induction l with
  | nil => simp [setKey, lookupKey]
  | cons p rest ih =>
    obtain ⟨k', v'⟩ := p
    by_cases h : k' = k
    · simp [setKey, lookupKey, h]
    · simp [setKey, lookupKey, h, ih]

theorem lookupKey_setKey_ne {β : Type} (l : List (String × β)) (k k' : String)
    (v : β) (h : k ≠ k') : lookupKey (setKey l k v) k' = lookupKey l k' := by
  induction l with
  | nil => simp [setKey, lookupKey, h]
  | cons p rest ih =>
    obtain ⟨k'', v''⟩ := p
    by_cases h2 : k'' = k
    · subst h2
      simp [setKey, lookupKey, h]
    · simp [setKey, lookupKey, h2, ih]

/-- Run `checkRateLimit(key, maxRequests, windowMs)` once per listed call
time, starting from the empty handler state, and collect the verdicts. -/
def rateCallResults (service : String) (maxRequests : Nat) (windowMs : Int) :
    List Int → EHState → List Bool
  | [], _ => []
  | t :: ts, st =>
    let r := checkRateLimit st t service maxRequests windowMs
    r.1 :: rateCallResults service maxRequests windowMs ts r.2

/-- Claim C2: the rate limiter denies without throwing and without side
effects once the counter reached `maxRequests` inside the current window
(part 1); when the current time passes the window's reset time the
counter is reset — the call is granted and the stored counter is 1
(part 2); and the concrete scenario: with `maxRequests = 3`,
`windowMs = 1000`, four calls inside one window and a fifth after it
yield `true, true, true, false, true` for every provider key (part 3). -/
theorem claim2_rate_limiter :
    (∀ (st : EHState) (now : Int) (service : String) (maxRequests : Nat)
       (windowMs : Int) (sd : RateData),
       lookupKey st.rateLimits service = some sd →
       now ≤ sd.resetTime →
       maxRequests ≤ sd.count →
       checkRateLimit st now service maxRequests windowMs = (false, st)) ∧
    (∀ (st : EHState) (now : Int) (service : String) (maxRequests : Nat)
       (windowMs : Int) (sd : RateData),
       lookupKey st.rateLimits service = some sd →
       sd.resetTime < now →
       0 < maxRequests →
       (checkRateLimit st now service maxRequests windowMs).1 = true ∧
       lookupKey (checkRateLimit st now service maxRequests windowMs).2.rateLimits
         service = some ⟨1, now + windowMs⟩) ∧
    (∀ key : String,
       rateCallResults key 3 1000 [0, 0, 0, 0, 1001] EHState.empty =
         [true, true, true, false, true]) := by
  refine ⟨?_, ?_, ?_⟩
  · intro st now service maxRequests windowMs sd hlookup hwin hcount
    have hreset : decide (now > sd.resetTime) = false :=
      decide_eq_false (not_lt.mpr hwin)
    unfold checkRateLimit
    rw [hlookup]
    simp [hreset, hcount]
  · intro st now service maxRequests windowMs sd hlookup hwin hmax
    have hreset : decide (now > sd.resetTime) = true := decide_eq_true hwin
    have hnot : ¬ (0 ≥ maxRequests) := by omega
    unfold checkRateLimit
    rw [hlookup]
    simp [hreset, hnot, lookupKey_setKey]
  · intro key
    have h1 : checkRateLimit EHState.empty 0 key 3 1000 =
        (true, ⟨[], [], [(key, ⟨1, 1000⟩)], []⟩) := by
      simp [checkRateLimit, EHState.empty, lookupKey, setKey]
    have h2 : checkRateLimit ⟨[], [], [(key, ⟨1, 1000⟩)], []⟩ 0 key 3 1000 =
        (true, ⟨[], [], [(key, ⟨2, 1000⟩)], []⟩) := by
      simp [checkRateLimit, lookupKey, setKey]
    have h3 : checkRateLimit ⟨[], [], [(key, ⟨2, 1000⟩)], []⟩ 0 key 3 1000 =
        (true, ⟨[], [], [(key, ⟨3, 1000⟩)], []⟩) := by
      simp [checkRateLimit, lookupKey, setKey]
    have h4 : checkRateLimit ⟨[], [], [(key, ⟨3, 1000⟩)], []⟩ 0 key 3 1000 =
        (false, ⟨[], [], [(key, ⟨3, 1000⟩)], []⟩) := by
      simp [checkRateLimit, lookupKey, setKey]
    have h5 : checkRateLimit ⟨[], [], [(key, ⟨3, 1000⟩)], []⟩ 1001 key 3 1000 =
        (true, ⟨[], [], [(key, ⟨1, 2001⟩)], []⟩) := by
      simp [checkRateLimit, lookupKey, setKey]
    simp only [rateCallResults, h1, h2, h3, h4, h5]

/-- Claim C2, witness: the three parts of `claim2_rate_limiter` applied
at concrete states — a saturated counter is denied with the state left
unchanged, an elapsed window resets the counter to a granted 1, and the
five-call scenario produces `true, true, true, false, true`. -/
theorem claim2_rate_limiter_witness :
    checkRateLimit ⟨[], [], [("newsapi", ⟨3, 1000⟩)], []⟩ 500 "newsapi" 3 1000 =
      (false, ⟨[], [], [("newsapi", ⟨3, 1000⟩)], []⟩) ∧
    ((checkRateLimit ⟨[], [], [("guardian", ⟨5, 1000⟩)], []⟩ 1001 "guardian" 3 1000).1 = true ∧
     lookupKey (checkRateLimit ⟨[], [], [("guardian", ⟨5, 1000⟩)], []⟩ 1001
       "guardian" 3 1000).2.rateLimits "guardian" = some ⟨1, 2001⟩) ∧
    rateCallResults "newsapi" 3 1000 [0, 0, 0, 0, 1001] EHState.empty =
      [true, true, true, false, true] :=
  ⟨claim2_rate_limiter.1 ⟨[], [], [("newsapi", ⟨3, 1000⟩)], []⟩ 500 "newsapi"
      3 1000 ⟨3, 1000⟩ rfl (by decide) (by decide),
   claim2_rate_limiter.2.1 ⟨[], [], [("guardian", ⟨5, 1000⟩)], []⟩ 1001
      "guardian" 3 1000 ⟨5, 1000⟩ rfl (by decide) (by decide),
   claim2_rate_limiter.2.2 "newsapi"⟩

/-! ### Claim C3 — cache staleness and the read-even-if-expired path -/

/-- The read-even-if-expired access: the raw `this.cache.get(cacheKey)`
performed by the last-resort tier of `executeWithFallback` (line 332),
with no staleness check and no deletion. -/
def getEvenIfExpired (st : EHState) (key : String) : Option CacheEntry :=
  lookupKey st.cache key

/-- A minimal response used by concrete cache scenarios. -/
def tinyResponse : ServiceResponse :=
  { data := [], source := "test", timestamp := 0, hasMore := false, totalResults := 0 }

/-- Claim C3, counterexample: an entry written at time 0 with `ttl = 100`
is readable at once, but the normal read at time 150 deletes it from the
store, so the read-even-if-expired path performed afterwards — the
sequence described by the claim — returns absent, contradicting "kept in
the store so it remains retrievable by the bypass read". -/
theorem claim3_counterexample :
    (getCachedData (setCachedData EHState.empty 0 "k" tinyResponse 100) 0 "k").1 =
      some ⟨tinyResponse, 0, 100⟩ ∧
    (getCachedData (setCachedData EHState.empty 0 "k" tinyResponse 100) 150 "k").1 =
      none ∧
    getEvenIfExpired
      (getCachedData (setCachedData EHState.empty 0 "k" tinyResponse 100) 150 "k").2
      "k" = none := by
  refine ⟨rfl, ?_, ?_⟩ <;>
    simp [getCachedData, setCachedData, getEvenIfExpired, EHState.empty,
      lookupKey, setKey, eraseKey]

/-- Claim C3, amended: the normal read returns an entry only while
`now - writtenAt < ttl` (part 1) and deletes an expired entry from the
in-memory store (part 2); consequently, for the entry written with
`ttl = 100`, the bypass read still retrieves it at time 150 only as long
as no normal read has run since expiry — after the normal read at 150
the bypass read returns absent (part 3). -/
theorem claim3_amended :
    (∀ (st : EHState) (now : Int) (key : String) (e : CacheEntry),
       lookupKey st.cache key = some e →
       now - e.timestamp < e.ttl →
       getCachedData st now key = (some e, st)) ∧
    (∀ (st : EHState) (now : Int) (key : String) (e : CacheEntry),
       lookupKey st.cache key = some e →
       e.ttl ≤ now - e.timestamp →
       getCachedData st now key =
         (none, { st with cache := eraseKey st.cache key })) ∧
    (let st0 := setCachedData EHState.empty 0 "k" tinyResponse 100
     (getCachedData st0 0 "k").1 = some ⟨tinyResponse, 0, 100⟩ ∧
     (getCachedData st0 150 "k").1 = none ∧
     getEvenIfExpired st0 "k" = some ⟨tinyResponse, 0, 100⟩ ∧
     getEvenIfExpired (getCachedData st0 150 "k").2 "k" = none) := by
  refine ⟨?_, ?_, rfl, ?_, rfl, ?_⟩
  · intro st now key e hlookup hfresh
    unfold getCachedData
    rw [hlookup]
    dsimp only
    rw [if_pos hfresh]
  · intro st now key e hlookup hstale
    unfold getCachedData
    rw [hlookup]
    dsimp only
    rw [if_neg (not_lt.mpr hstale)]
  · simp [getCachedData, setCachedData, EHState.empty, lookupKey, setKey]
  · simp [getCachedData, setCachedData, getEvenIfExpired, EHState.empty,
      lookupKey, setKey, eraseKey]

/-- Claim C3, witness: the general parts of `claim3_amended` applied to a
concrete store — the fresh read at 0 returns the entry and leaves the
state alone; the read at 150 deletes it. -/
theorem claim3_amended_witness :
    getCachedData ⟨[("k", ⟨tinyResponse, 0, 100⟩)], [], [], []⟩ 0 "k" =
      (some ⟨tinyResponse, 0, 100⟩, ⟨[("k", ⟨tinyResponse, 0, 100⟩)], [], [], []⟩) ∧
    getCachedData ⟨[("k", ⟨tinyResponse, 0, 100⟩)], [], [], []⟩ 150 "k" =
      (none, ⟨[], [], [], []⟩) :=
  ⟨claim3_amended.1 ⟨[("k", ⟨tinyResponse, 0, 100⟩)], [], [], []⟩ 0 "k"
      ⟨tinyResponse, 0, 100⟩ rfl (by decide),
   claim3_amended.2.1 ⟨[("k", ⟨tinyResponse, 0, 100⟩)], [], [], []⟩ 150 "k"
      ⟨tinyResponse, 0, 100⟩ rfl (by decide)⟩

/-! ### Claim C6 — ranking monotonicity in the publish time -/

theorem calculateRecencyScore_mono (now p1 p2 : Int) (h : p2 ≤ p1) :
    calculateRecencyScore now p2 ≤ calculateRecencyScore now p1 := by
  have key : ∀ x y : ℚ, x ≤ y →
      (if y ≤ 2 then (1:ℚ)
       else if y ≤ 12 then 8/10
       else if y ≤ 24 then 6/10
       else if y ≤ 72 then 4/10
       else if y ≤ 168 then 2/10
       else 1/10) ≤
      (if x ≤ 2 then (1:ℚ)
       else if x ≤ 12 then 8/10
       else if x ≤ 24 then 6/10
       else if x ≤ 72 then 4/10
       else if x ≤ 168 then 2/10
       else 1/10) := by
    intro x y hxy
    split_ifs <;> norm_num <;> linarith
  have hq : ((now - p1 : Int) : ℚ) / 3600000 ≤ ((now - p2 : Int) : ℚ) / 3600000 := by
    apply div_le_div_of_nonneg_right ?_ (by norm_num)
    exact_mod_cast sub_le_sub_left h now
  exact key _ _ hq

/-- Decomposition of the overall score into the recency term plus the
publish-time-independent rest. -/
theorem overallScore_decomp (now : Int) (a : Article) (cat : Category) :
    overallScore now a cat =
      calculateRecencyScore now a.publishedAt * (25/100) +
        (calculateEngagementScore a * (20/100) +
         calculateSourceCredibilityScore a.source * (15/100) +
         calculateTrendingScore a cat * (25/100) +
         calculateCategoryRelevanceScore a cat * (15/100)) := by
  unfold overallScore enhanceArticleWithPopularity
  dsimp only
  ring

/-- A minimal concrete article used by the ranking scenarios. -/
def sampleTechArticle : Article :=
  { id := "a1", title := "t", description := "", url := "",
    urlToImage := none, author := "", source := "S",
    publishedAt := 3600000, category := .TECH, tags := [] }

/-- Claim C6, counterexample: two articles identical except for the
publish time, one published now and one an hour earlier (both inside the
≤ 2h recency bucket), receive EQUAL overall scores at `now = 3600000`,
refuting "strictly higher". -/
theorem claim6_counterexample :
    ({ sampleTechArticle with publishedAt := 0 } : Article).publishedAt <
      sampleTechArticle.publishedAt ∧
    overallScore 3600000 sampleTechArticle .TECH =
      overallScore 3600000 { sampleTechArticle with publishedAt := 0 } .TECH := by
  refine ⟨by decide, ?_⟩
  rw [overallScore_decomp, overallScore_decomp]
  have hrec : calculateRecencyScore 3600000 sampleTechArticle.publishedAt =
      calculateRecencyScore 3600000
        ({ sampleTechArticle with publishedAt := 0 } : Article).publishedAt := by
    show calculateRecencyScore 3600000 3600000 = calculateRecencyScore 3600000 0
    unfold calculateRecencyScore
    norm_num
  rw [hrec]
  rfl

/-- Claim C6, amended: for two otherwise-identical articles differing
only in publish time, the more recent one scores at least as high
(`overallScore` is monotone, not strictly monotone: the recency score is
a step function of the age, so ages inside the same bucket tie). -/
theorem claim6_amended (now : Int) (cat : Category) (a : Article) (t : Int)
    (h : t ≤ a.publishedAt) :
    overallScore now { a with publishedAt := t } cat ≤ overallScore now a cat := by
  rw [overallScore_decomp, overallScore_decomp]
  have hrest : calculateEngagementScore { a with publishedAt := t } * (20/100) +
      calculateSourceCredibilityScore ({ a with publishedAt := t } : Article).source * (15/100) +
      calculateTrendingScore { a with publishedAt := t } cat * (25/100) +
      calculateCategoryRelevanceScore { a with publishedAt := t } cat * (15/100) =
      calculateEngagementScore a * (20/100) +
      calculateSourceCredibilityScore a.source * (15/100) +
      calculateTrendingScore a cat * (25/100) +
      calculateCategoryRelevanceScore a cat * (15/100) := rfl
  rw [hrest]
  apply add_le_add_right
  apply mul_le_mul_of_nonneg_right _ (by norm_num)
  exact calculateRecencyScore_mono now a.publishedAt t h

/-- Claim C6, witness: the amended monotonicity applied to the concrete
article and an 8-hour-older copy. -/
theorem claim6_amended_witness :
    overallScore 3600000 { sampleTechArticle with publishedAt := -25200000 } .TECH ≤
      overallScore 3600000 sampleTechArticle .TECH :=
  claim6_amended 3600000 .TECH sampleTechArticle (-25200000) (by decide)

/-! ### Claim C5 — the preload scheduler's read path -/

/-- Claim C5, counterexample: with no cached entry for the category and a
failing fetch, `PreloadingService.getArticles` rethrows the fetch error
(line 143 `throw error`), contradicting "never propagates the error to
the caller … does not throw even when no stale cached result is
available". -/
theorem claim5_counterexample :
    PreloadingService.getArticles ([] : PreloadCache) 0 .ALL
      (.error "network down") = (.error "network down", ([] : PreloadCache)) := rfl

/-- Claim C5, amended: a valid (non-expired) cached ranked result is
returned immediately (part 1); otherwise a synchronous fetch-rank-cache
cycle runs (part 2, for a successful non-empty fetch); a failing fetch
falls back to the stale cached entry when one exists (part 3); but when
no cached entry exists a failing fetch's error PROPAGATES to the caller
(part 4). -/
theorem claim5_amended :
    (∀ (pc : PreloadCache) (now : Int) (cat : Category)
       (fetch : Except String ServiceResponse) (c : PreloadEntry),
       lookupBy pc cat = some c →
       now - c.timestamp < PRELOAD_CACHE_TTL →
       PreloadingService.getArticles pc now cat fetch =
         (.ok { data := c.articles, source := c.source ++ " (Cached)",
                timestamp := c.timestamp, hasMore := true,
                totalResults := c.articles.length }, pc)) ∧
    (∀ (pc : PreloadCache) (now : Int) (cat : Category) (resp : ServiceResponse),
       lookupBy pc cat = none →
       0 < resp.data.length →
       PreloadingService.getArticles pc now cat (.ok resp) =
         (.ok { data := rankArticlesByPopularity now resp.data cat,
                source := resp.source, timestamp := resp.timestamp,
                hasMore := resp.hasMore, totalResults := resp.totalResults },
          setBy pc cat ⟨rankArticlesByPopularity now resp.data cat, now, resp.source⟩)) ∧
    (∀ (pc : PreloadCache) (now : Int) (cat : Category) (c : PreloadEntry) (e : String),
       lookupBy pc cat = some c →
       PRELOAD_CACHE_TTL ≤ now - c.timestamp →
       PreloadingService.getArticles pc now cat (.error e) =
         (.ok { data := c.articles, source := c.source ++ " (Offline)",
                timestamp := c.timestamp, hasMore := false,
                totalResults := c.articles.length }, pc)) ∧
    (∀ (pc : PreloadCache) (now : Int) (cat : Category) (e : String),
       lookupBy pc cat = none →
       PreloadingService.getArticles pc now cat (.error e) = (.error e, pc)) := by
  refine ⟨?_, ?_, ?_, ?_⟩
  · intro pc now cat fetch c hlookup hvalid
    unfold PreloadingService.getArticles
    rw [hlookup]
    dsimp only
    rw [if_pos (show isCacheValid now c.timestamp = true from decide_eq_true hvalid)]
  · intro pc now cat resp hlookup hlen
    unfold PreloadingService.getArticles PreloadingService.getArticlesFresh
    rw [hlookup]
    dsimp only
    rw [if_pos hlen]
  · intro pc now cat c e hlookup hstale
    unfold PreloadingService.getArticles PreloadingService.getArticlesFresh
    rw [hlookup]
    dsimp only
    rw [if_neg (by simp [isCacheValid, not_lt.mpr hstale])]
  · intro pc now cat e hlookup
    unfold PreloadingService.getArticles PreloadingService.getArticlesFresh
    rw [hlookup]

/-- Claim C5, witness: the cached-hit, stale-fallback and
error-propagation parts of `claim5_amended` at concrete states. -/
theorem claim5_amended_witness :
    PreloadingService.getArticles [(Category.ALL, ⟨[], 5, "Net"⟩)] 10 .ALL
      (.error "down") =
      (.ok { data := [], source := "Net (Cached)", timestamp := 5,
             hasMore := true, totalResults := 0 },
       [(Category.ALL, ⟨[], 5, "Net"⟩)]) ∧
    PreloadingService.getArticles [(Category.ALL, ⟨[], 5, "Net"⟩)] 10000000 .ALL
      (.error "down") =
      (.ok { data := [], source := "Net (Offline)", timestamp := 5,
             hasMore := false, totalResults := 0 },
       [(Category.ALL, ⟨[], 5, "Net"⟩)]) ∧
    PreloadingService.getArticles ([] : PreloadCache) 0 .INDIA
      (.error "down") = (.error "down", ([] : PreloadCache)) :=
  ⟨claim5_amended.1 [(Category.ALL, ⟨[], 5, "Net"⟩)] 10 .ALL (.error "down")
      ⟨[], 5, "Net"⟩ rfl (by decide),
   claim5_amended.2.2.1 [(Category.ALL, ⟨[], 5, "Net"⟩)] 10000000 .ALL
      ⟨[], 5, "Net"⟩ "down" rfl (by decide),
   claim5_amended.2.2.2 ([] : PreloadCache) 0 .INDIA "down" rfl⟩

/-! ### Claim C9 — idempotence analysis of the duplicate-removal step -/

/-- Membership of a key in the `seen` map (with some value). -/
def keyMem (k : String) (l : List (String × Article)) : Prop :=
  ∃ v, (k, v) ∈ l

theorem self_mem_setKey (l : List (String × Article)) (k : String) (v : Article) :
    (k, v) ∈ setKey l k v := by
  induction l with
  | nil => simp [setKey]
  | cons p rest ih =>
    obtain ⟨k', v'⟩ := p
    by_cases h : k' = k
    · subst h; simp [setKey]
    · simp [setKey, h, ih]

theorem mem_setKey_of_mem_ne (l : List (String × Article)) (k k' : String)
    (v v' : Article) (hne : k' ≠ k) (h : (k', v') ∈ l) :
    (k', v') ∈ setKey l k v := by
  induction l with
  | nil => simp at h
  | cons p rest ih =>
    obtain ⟨k'', v''⟩ := p
    by_cases h2 : k'' = k
    · subst h2
      rcases List.mem_cons.mp h with h3 | h3
      · exact absurd (congrArg Prod.fst h3) hne
      · simp [setKey, List.mem_cons, h3]
    · rcases List.mem_cons.mp h with h3 | h3
      · simp [setKey, h2, List.mem_cons, h3]
      · simp only [setKey, if_neg h2, List.mem_cons]
        exact Or.inr (ih h3)

theorem keyMem_setKey (l : List (String × Article)) (k k' : String) (v : Article)
    (h : keyMem k' l) : keyMem k' (setKey l k v) := by
  by_cases he : k' = k
  · subst he
    exact ⟨v, self_mem_setKey l k' v⟩
  · obtain ⟨v', hv'⟩ := h
    exact ⟨v', mem_setKey_of_mem_ne l k k' v v' he hv'⟩

theorem mem_setKey_split (l : List (String × Article)) (k : String) (v : Article)
    (e : String × Article) (h : e ∈ setKey l k v) : e ∈ l ∨ e = (k, v) := by
  induction l with
  | nil => simpa [setKey] using h
  | cons p rest ih =>
    obtain ⟨k', v'⟩ := p
    by_cases h2 : k' = k
    · subst h2
      rw [setKey, if_pos rfl] at h
      rcases List.mem_cons.mp h with h3 | h3
      · exact Or.inr h3
      · exact Or.inl (List.mem_cons_of_mem _ h3)
    · rw [setKey, if_neg h2] at h
      rcases List.mem_cons.mp h with h3 | h3
      · exact Or.inl (h3 ▸ List.mem_cons_self _ _)
      · rcases ih h3 with h4 | h4
        · exact Or.inl (List.mem_cons_of_mem _ h4)
        · exact Or.inr h4

/-- The dissimilarity relation between an earlier accepted article `a`
and a later one `b`: the duplicate test on their keys fails. -/
def KeysDissim (sim : String → String → Bool) (a b : Article) : Prop :=
  sim (titleKey b) (titleKey a) = false

/-- Invariant of a replacement-free run: the flag is down, accepted
articles are pairwise dissimilar, and every accepted article's key is in
the `seen` map. -/
def DedupInv (sim : String → String → Bool) (st : DedupState) : Prop :=
  st.replacedAny = false ∧
  List.Pairwise (KeysDissim sim) st.unique ∧
  ∀ a ∈ st.unique, keyMem (titleKey a) st.seen

theorem dedupStep_flag_mono (sim : String → String → Bool) (st : DedupState)
    (x : Article) (h : st.replacedAny = true) :
    (dedupStep sim st x).replacedAny = true := by
  unfold dedupStep
  dsimp only
  rcases hf : st.seen.find? (fun e => sim (titleKey x) e.1) with _ | e <;> rw [hf]
  · simpa using h
  · dsimp only
    split_ifs
    · rcases hi : st.unique.findIdx? (fun b => b = e.2) with _ | idx
      · exact h
      · rfl
    · simpa using h

theorem dedupFold_flag_mono (sim : String → String → Bool) (xs : List Article)
    (st : DedupState) (h : st.replacedAny = true) :
    (xs.foldl (dedupStep sim) st).replacedAny = true := by
  induction xs generalizing st with
  | nil => exact h
  | cons x xs ih => exact ih _ (dedupStep_flag_mono sim st x h)

theorem dedupStep_preserves_inv (sim : String → String → Bool) (st : DedupState)
    (x : Article) (hflag : (dedupStep sim st x).replacedAny = false)
    (hI : DedupInv sim st) : DedupInv sim (dedupStep sim st x) := by
  obtain ⟨h0, hpw, hkeys⟩ := hI
  unfold dedupStep at hflag ⊢
  dsimp only at hflag ⊢
  rcases hf : st.seen.find? (fun e => sim (titleKey x) e.1) with _ | e <;>
    rw [hf] at hflag ⊢
  · -- no similar seen key: x is accepted
    have hnone : ∀ e ∈ st.seen, ¬ (sim (titleKey x) e.1 = true) := by
      intro e he
      exact List.find?_eq_none.mp hf e he
    dsimp only
    refine ⟨h0, ?_, ?_⟩
    · rw [List.pairwise_append]
      refine ⟨hpw, List.pairwise_singleton _ _, ?_⟩
      intro a ha b hb
      rw [List.mem_singleton] at hb
      subst hb
      obtain ⟨v, hv⟩ := hkeys a ha
      have hx := hnone (titleKey a, v) hv
      unfold KeysDissim
      simpa using hx
    · intro a ha
      rcases List.mem_append.mp ha with ha | ha
      · exact keyMem_setKey _ _ _ _ (hkeys a ha)
      · rw [List.mem_singleton] at ha
        subst ha
        exact ⟨a, self_mem_setKey _ _ _⟩
  · -- a similar key was found
    dsimp only at hflag ⊢
    split_ifs at hflag ⊢ with hd
    · rcases hi : st.unique.findIdx? (fun b => b = e.2) with _ | idx
      · exact ⟨h0, hpw, hkeys⟩
      · -- a replacement fired: contradicts the flag staying down
        rw [hi] at hflag
        simp at hflag
    · exact ⟨h0, hpw, hkeys⟩

theorem dedupFold_inv (sim : String → String → Bool) (xs : List Article)
    (st : DedupState) (hI : DedupInv sim st)
    (hflag : (xs.foldl (dedupStep sim) st).replacedAny = false) :
    DedupInv sim (xs.foldl (dedupStep sim) st) := by
  induction xs generalizing st with
  | nil => exact hI
  | cons x xs ih =>
    have hstep : (dedupStep sim st x).replacedAny = false := by
      by_contra h
      rw [Bool.not_eq_false] at h
      rw [List.foldl_cons] at hflag
      rw [dedupFold_flag_mono sim xs _ h] at hflag
      simp at hflag
    rw [List.foldl_cons] at hflag ⊢
    exact ih _ (dedupStep_preserves_inv sim st x hstep hI) hflag

/-- A replacement-free run yields pairwise dissimilar output. -/
theorem dedupRun_pairwise (sim : String → String → Bool) (xs : List Article)
    (hflag : (dedupRun sim xs).replacedAny = false) :
    List.Pairwise (KeysDissim sim) (dedupRun sim xs).unique := by
  have : DedupInv sim (dedupRun sim xs) := by
    apply dedupFold_inv
    · exact ⟨rfl, List.Pairwise.nil, by intro a ha; simp at ha⟩
    · exact hflag
  exact this.2.1

/-- Running the loop over pairwise dissimilar input appends it to the
accumulator unchanged, with no replacement, provided every `seen` key
belongs to an accepted article and the new input is dissimilar from
everything accepted. -/
theorem dedupFold_of_pairwise (sim : String → String → Bool) :
    ∀ (ys : List Article) (st : DedupState),
    st.replacedAny = false →
    (∀ e ∈ st.seen, ∃ a ∈ st.unique, e.1 = titleKey a) →
    (∀ a ∈ st.unique, ∀ y ∈ ys, sim (titleKey y) (titleKey a) = false) →
    List.Pairwise (KeysDissim sim) ys →
    (ys.foldl (dedupStep sim) st).unique = st.unique ++ ys ∧
    (ys.foldl (dedupStep sim) st).replacedAny = false
  | [], st, h0, _, _, _ => ⟨(List.append_nil st.unique).symm, h0⟩
  | y :: ys, st, h0, hseen, hdis, hpw => by
    have hfind : st.seen.find? (fun e => sim (titleKey y) e.1) = none := by
      rw [List.find?_eq_none]
      intro e he
      obtain ⟨a, ha, hae⟩ := hseen e he
      simp only [hae]
      rw [hdis a ha y (List.mem_cons_self y ys)]
      simp
    have hstep : dedupStep sim st y =
        ⟨setKey st.seen (titleKey y) y, st.unique ++ [y], st.replacedAny⟩ := by
      unfold dedupStep
      dsimp only
      rw [hfind]
    rw [List.foldl_cons, hstep]
    have hres := dedupFold_of_pairwise sim ys
      ⟨setKey st.seen (titleKey y) y, st.unique ++ [y], st.replacedAny⟩
      (by simpa using h0)
      (by
        intro e he
        rcases mem_setKey_split st.seen (titleKey y) y e he with h | h
        · obtain ⟨a, ha, hae⟩ := hseen e h
          exact ⟨a, List.mem_append_left _ ha, hae⟩
        · subst h
          exact ⟨y, List.mem_append_right _ (List.mem_singleton_self y), rfl⟩)
      (by
        intro a ha z hz
        rcases List.mem_append.mp ha with ha | ha
        · exact hdis a ha z (List.mem_cons_of_mem y hz)
        · rw [List.mem_singleton] at ha
          subst ha
          exact List.rel_of_pairwise_cons hpw hz)
      (hpw.sublist (List.sublist_cons_self y ys))
    rcases hres with ⟨h1, h2⟩
    constructor
    · rw [h1]
      simp
    · exact h2

/-- Claim C9, counterexample: the Diversity Engine's deduplication is NOT
idempotent.  On the articles with title keys `abcdefghij` (description
length 1), `abcdefghijklm` (length 3) and `abcdefghijk` (length 2), the
first run replaces the first article by the third (similarity 10/11 >
0.8) while keeping the second (10/13 ≤ 0.8); in the output the two
survivors are similar (11/13 > 0.8), so a second run removes one more
article. -/
theorem claim9_counterexample :
    removeDuplicateArticles (removeDuplicateArticles
      [{ sampleTechArticle with title := "abcdefghij", description := "x" },
       { sampleTechArticle with title := "abcdefghijklm", description := "xxx" },
       { sampleTechArticle with title := "abcdefghijk", description := "xx" }]) ≠
    removeDuplicateArticles
      [{ sampleTechArticle with title := "abcdefghij", description := "x" },
       { sampleTechArticle with title := "abcdefghijklm", description := "xxx" },
       { sampleTechArticle with title := "abcdefghijk", description := "xx" }] := by
  unfold removeDuplicateArticles
  simp only [dedupRun_eq_cross]
  decide

/-- Claim C9, amended: deduplication is idempotent on every run that
performs no keep-the-longer-description replacement: if the first run's
replacement flag stays down, re-running `removeDuplicateArticles` on its
output returns that output unchanged.  (When a replacement does fire,
idempotence can fail, as the counterexample shows: the first-similar-key
`break` skips comparing the replacement against later accepted
articles.) -/
theorem claim9_amended (xs : List Article)
    (h : (dedupRun similarKey xs).replacedAny = false) :
    removeDuplicateArticles (removeDuplicateArticles xs) =
      removeDuplicateArticles xs := by
  have hpw := dedupRun_pairwise similarKey xs h
  have := dedupFold_of_pairwise similarKey (dedupRun similarKey xs).unique
    ⟨[], [], false⟩ rfl (by intro e he; simp at he) (by intro a ha; simp at ha) hpw
  unfold removeDuplicateArticles
  unfold dedupRun at this ⊢
  rw [this.1]
  simp

/-- Claim C9, witness: two dissimilar articles survive the first run with
no replacement, and the amended idempotence applies to them. -/
theorem claim9_amended_witness :
    (dedupRun similarKey
      [{ sampleTechArticle with title := "abcdefghij" },
       { sampleTechArticle with title := "zzzyyyxxx" }]).replacedAny = false ∧
    removeDuplicateArticles (removeDuplicateArticles
      [{ sampleTechArticle with title := "abcdefghij" },
       { sampleTechArticle with title := "zzzyyyxxx" }]) =
    removeDuplicateArticles
      [{ sampleTechArticle with title := "abcdefghij" },
       { sampleTechArticle with title := "zzzyyyxxx" }] := by
  have h : (dedupRun similarKey
      [{ sampleTechArticle with title := "abcdefghij" },
       { sampleTechArticle with title := "zzzyyyxxx" }]).replacedAny = false := by
    rw [similarKey_eq_cross]
    decide
  exact ⟨h, claim9_amended _ h⟩

/-! ### Claims C8 and C10 — permutation and structure lemmas for the
diversity engine -/

theorem listSwap_perm {α : Type} [DecidableEq α] (l : List α) (i j : Nat) :
    (listSwap l i j).Perm l := by
  unfold listSwap
  rcases hx : l[i]? with _ | x
  · exact List.Perm.refl l
  · rcases hy : l[j]? with _ | y
    · exact List.Perm.refl l
    · have hi : i < l.length := by
        by_contra h
        push_neg at h
        rw [List.getElem?_eq_none h] at hx
        exact Option.noConfusion hx
      have hj : j < l.length := by
        by_contra h
        push_neg at h
        rw [List.getElem?_eq_none h] at hy
        exact Option.noConfusion hy
      have hxv : l[i] = x := by
        rw [List.getElem?_eq_getElem hi] at hx
        exact Option.some.inj hx
      have hyv : l[j] = y := by
        rw [List.getElem?_eq_getElem hj] at hy
        exact Option.some.inj hy
      rw [List.perm_iff_count]
      intro c
      have hj' : j < (l.set i y).length := by simpa using hj
      rw [List.count_set x c (l.set i y) j hj', List.count_set y c l i hi]
      have hLj : (l.set i y)[j] = y := by
        rcases eq_or_ne i j with hij | hij
        · subst hij
          simp
        · rw [List.getElem_set_ne hij]
          exact hyv
      have hcount : (if (x == c) = true then 1 else 0) ≤ List.count c l := by
        split_ifs with hc
        · rw [beq_iff_eq] at hc
          have hmem : c ∈ l := by
            rw [← hc, ← hxv]
            exact List.getElem_mem hi
          exact List.count_pos_iff.mpr hmem
        · exact Nat.zero_le _
      rw [hLj, hxv]
      rcases eq_or_ne x c with hxc | hxc <;> rcases eq_or_ne y c with hyc | hyc
      · subst hxc; subst hyc
        simp at hcount ⊢
        have hpos := List.count_pos_iff.mpr hcount
        omega
      · subst hxc
        simp [hyc] at hcount ⊢
        have hpos := List.count_pos_iff.mpr hcount
        omega
      · subst hyc
        simp [hxc]
      · simp [hxc, hyc]

theorem shuffleArticles_perm (articles : List Article) (rand : Nat → Nat) :
    (shuffleArticles articles rand).Perm articles := by
  unfold shuffleArticles
  generalize (List.range' 1 (articles.length - 1)).reverse = idxs
  induction idxs generalizing articles with
  | nil => exact List.Perm.refl _
  | cons i idxs ih =>
    rw [List.foldl_cons]
    exact (ih (listSwap articles i (rand i % (i + 1)))).trans
      (listSwap_perm articles i (rand i % (i + 1)))

theorem takeHeads_nil_flatten (gs : List (String × List Article))
    (h : (takeHeads gs).1 = []) : ((gs.map (fun g => g.2)).flatten) = [] := by
  induction gs with
  | nil => rfl
  | cons g gs ih =>
    obtain ⟨s, q⟩ := g
    cases q with
    | nil =>
      rw [takeHeads] at h
      simp only [List.map_cons, List.flatten_cons, List.nil_append]
      exact ih h
    | cons a q =>
      rw [takeHeads] at h
      exact List.noConfusion h

theorem takeHeads_flatten_perm (gs : List (String × List Article)) :
    ((takeHeads gs).1 ++ (((takeHeads gs).2.map (fun g => g.2)).flatten)).Perm
      ((gs.map (fun g => g.2)).flatten) := by
  induction gs with
  | nil => exact List.Perm.refl _
  | cons g gs ih =>
    obtain ⟨s, q⟩ := g
    cases q with
    | nil =>
      rw [takeHeads]
      simpa using ih
    | cons a q =>
      rw [takeHeads]
      simp only [List.map_cons, List.flatten_cons, List.cons_append]
      refine List.Perm.cons a ?_
      have h1 : ((takeHeads gs).1 ++ (q ++ (((takeHeads gs).2.map (fun g => g.2)).flatten))).Perm
          (q ++ ((takeHeads gs).1 ++ (((takeHeads gs).2.map (fun g => g.2)).flatten))) := by
        rw [← List.append_assoc, ← List.append_assoc]
        exact List.Perm.append_right _ List.perm_append_comm
      exact h1.trans (List.Perm.append_left q ih)

theorem roundRobin_perm (gs : List (String × List Article)) :
    (roundRobin gs).Perm ((gs.map (fun g => g.2)).flatten) := by
  rw [roundRobin]
  split_ifs with h
  · rw [takeHeads_nil_flatten gs h]
  · exact ((roundRobin_perm (takeHeads gs).2).append_left (takeHeads gs).1).trans
      (takeHeads_flatten_perm gs)
termination_by totalLen gs
decreasing_by exact takeHeads_emits_of_ne_nil gs h

theorem lookupKey_eq_none_forall {β : Type} (l : List (String × β)) (k : String)
    (h : lookupKey l k = none) : ∀ e ∈ l, e.1 ≠ k := by
  induction l with
  | nil => intro e he; simp at he
  | cons p rest ih =>
    intro e he
    rw [lookupKey] at h
    by_cases h2 : p.1 = k
    · rw [if_pos h2] at h
      exact Option.noConfusion h
    · rw [if_neg h2] at h
      rcases List.mem_cons.mp he with he | he
      · subst he; exact h2
      · exact ih h e he

theorem flatten_setKey_perm (gs : List (String × List Article)) (s : String)
    (q : List Article) (x : Article) (h : lookupKey gs s = some q) :
    (((setKey gs s (q ++ [x])).map (fun g => g.2)).flatten).Perm
      (((gs.map (fun g => g.2)).flatten) ++ [x]) := by
  induction gs with
  | nil => exact Option.noConfusion h
  | cons p rest ih =>
    obtain ⟨k, v⟩ := p
    rw [lookupKey] at h
    by_cases h2 : k = s
    · rw [if_pos h2] at h
      have hv : v = q := Option.some.inj h
      subst hv
      rw [setKey, if_pos h2]
      simp only [List.map_cons, List.flatten_cons]
      rw [List.append_assoc, List.append_assoc]
      exact List.Perm.append_left v List.perm_append_comm
    · rw [if_neg h2] at h
      rw [setKey, if_neg h2]
      simp only [List.map_cons, List.flatten_cons]
      rw [List.append_assoc]
      exact List.Perm.append_left v (ih h)

theorem foldl_pushGroup_flatten_perm :
    ∀ (xs : List Article) (gs : List (String × List Article)),
    (((xs.foldl pushGroup gs).map (fun g => g.2)).flatten).Perm
      (((gs.map (fun g => g.2)).flatten) ++ xs)
  | [], gs => by simp
  | a :: xs, gs => by
    rw [List.foldl_cons]
    have step : (((pushGroup gs a).map (fun g => g.2)).flatten).Perm
        (((gs.map (fun g => g.2)).flatten) ++ [a]) := by
      unfold pushGroup
      rcases h : lookupKey gs a.source with _ | q
      · simp
      · exact flatten_setKey_perm gs a.source q a h
    have h1 := foldl_pushGroup_flatten_perm xs (pushGroup gs a)
    have h2 : ((((gs.map (fun g => g.2)).flatten) ++ [a]) ++ xs) =
        (((gs.map (fun g => g.2)).flatten) ++ (a :: xs)) := by
      rw [List.append_assoc]
      rfl
    exact h1.trans (h2 ▸ List.Perm.append_right xs step)

theorem groupBySource_flatten_perm (articles : List Article) :
    (((groupBySource articles).map (fun g => g.2)).flatten).Perm articles := by
  have := foldl_pushGroup_flatten_perm articles []
  simpa [groupBySource] using this

/-- The diversity pass is a permutation of its input, shuffle branch and
round-robin branch alike. -/
theorem ensureSourceDiversity_perm (articles : List Article) (minSources : Nat)
    (rand : Nat → Nat) :
    (ensureSourceDiversity articles minSources rand).Perm articles := by
  unfold ensureSourceDiversity
  dsimp only
  split_ifs with h0 h1
  · rw [List.isEmpty_iff.mp h0]
  · exact shuffleArticles_perm articles rand
  · exact (((roundRobin_perm (takeHeads (groupBySource articles)).2).append_left
      (takeHeads (groupBySource articles)).1).trans
        (takeHeads_flatten_perm (groupBySource articles))).trans
      (groupBySource_flatten_perm articles)

theorem lookupKey_append_left_none {β : Type} (gs0 l : List (String × β))
    (s : String) (h : lookupKey gs0 s = none) :
    lookupKey (gs0 ++ l) s = lookupKey l s := by
  induction gs0 with
  | nil => rfl
  | cons p rest ih =>
    rw [lookupKey] at h
    by_cases h2 : p.1 = s
    · rw [if_pos h2] at h
      exact Option.noConfusion h
    · rw [if_neg h2] at h
      obtain ⟨k, v⟩ := p
      simp only [List.cons_append, lookupKey, if_neg h2]
      exact ih h

theorem setKey_append_single {β : Type} (gs0 : List (String × β)) (s : String)
    (q v : β) (h : lookupKey gs0 s = none) :
    setKey (gs0 ++ [(s, q)]) s v = gs0 ++ [(s, v)] := by
  induction gs0 with
  | nil => simp [setKey]
  | cons p rest ih =>
    rw [lookupKey] at h
    by_cases h2 : p.1 = s
    · rw [if_pos h2] at h
      exact Option.noConfusion h
    · rw [if_neg h2] at h
      obtain ⟨k, v'⟩ := p
      simp only [List.cons_append, setKey, if_neg h2]
      exact congrArg (List.cons (k, v')) (ih h)

theorem foldl_pushGroup_last :
    ∀ (xs : List Article) (gs0 : List (String × List Article)) (s : String)
      (q : List Article),
    (∀ a ∈ xs, a.source = s) → lookupKey gs0 s = none →
    xs.foldl pushGroup (gs0 ++ [(s, q)]) = gs0 ++ [(s, q ++ xs)]
  | [], gs0, s, q, _, _ => by simp
  | a :: xs, gs0, s, q, hsrc, hnone => by
    have hs : a.source = s := hsrc a (List.mem_cons_self a xs)
    have hlook : lookupKey (gs0 ++ [(s, q)]) a.source = some q := by
      rw [hs, lookupKey_append_left_none gs0 _ s hnone, lookupKey, if_pos rfl]
    have hpush : pushGroup (gs0 ++ [(s, q)]) a = gs0 ++ [(s, q ++ [a])] := by
      unfold pushGroup
      rw [hlook, hs]
      exact setKey_append_single gs0 s q (q ++ [a]) hnone
    rw [List.foldl_cons, hpush,
      foldl_pushGroup_last xs gs0 s (q ++ [a])
        (fun b hb => hsrc b (List.mem_cons_of_mem a hb)) hnone,
      List.append_assoc]
    rfl

theorem foldl_pushGroup_batch (b : List Article) (gs0 : List (String × List Article))
    (s : String) (hb : b ≠ []) (hsrc : ∀ a ∈ b, a.source = s)
    (hnone : lookupKey gs0 s = none) :
    b.foldl pushGroup gs0 = gs0 ++ [(s, b)] := by
  rcases b with _ | ⟨a, rest⟩
  · exact absurd rfl hb
  · have hs : a.source = s := hsrc a (List.mem_cons_self a rest)
    have hpush : pushGroup gs0 a = gs0 ++ [(s, [a])] := by
      unfold pushGroup
      rw [hs, hnone]
    rw [List.foldl_cons, hpush,
      foldl_pushGroup_last rest gs0 s [a]
        (fun x hx => hsrc x (List.mem_cons_of_mem a hx)) hnone]
    rfl

theorem groupBySource_three (b1 b2 b3 : List Article) (s1 s2 s3 : String)
    (h1 : b1 ≠ []) (h2 : b2 ≠ []) (h3 : b3 ≠ [])
    (hs1 : ∀ a ∈ b1, a.source = s1) (hs2 : ∀ a ∈ b2, a.source = s2)
    (hs3 : ∀ a ∈ b3, a.source = s3)
    (h12 : s1 ≠ s2) (h13 : s1 ≠ s3) (h23 : s2 ≠ s3) :
    groupBySource (b1 ++ b2 ++ b3) = [(s1, b1), (s2, b2), (s3, b3)] := by
  unfold groupBySource
  rw [List.foldl_append, List.foldl_append]
  rw [foldl_pushGroup_batch b1 [] s1 h1 hs1 rfl]
  rw [foldl_pushGroup_batch b2 ([] ++ [(s1, b1)]) s2 h2 hs2
    (by simp [lookupKey, h12])]
  rw [foldl_pushGroup_batch b3 ([] ++ [(s1, b1)] ++ [(s2, b2)]) s3 h3 hs3
    (by simp [lookupKey, h13, h23])]
  rfl

/-- Claim C8: round-robin fairness of the diversity engine.  Part 1: for
three batches of 10 articles from three distinct providers, the first 3
items of the interleaved output carry the three distinct provider names,
one each, in first-appearance order.  Part 2: whenever at least
`minSources` (the engine's threshold for interleaving, 2 at the default)
providers contributed, the engine emits round-robin until every queue is
exhausted — its output is a permutation of its input. -/
theorem claim8_round_robin :
    (∀ (b1 b2 b3 : List Article) (s1 s2 s3 : String) (rand : Nat → Nat),
      b1.length = 10 → b2.length = 10 → b3.length = 10 →
      (∀ a ∈ b1, a.source = s1) → (∀ a ∈ b2, a.source = s2) →
      (∀ a ∈ b3, a.source = s3) →
      s1 ≠ s2 → s1 ≠ s3 → s2 ≠ s3 →
      ((ensureSourceDiversity (b1 ++ b2 ++ b3) 2 rand).take 3).map
        Article.source = [s1, s2, s3]) ∧
    (∀ (articles : List Article) (rand : Nat → Nat),
      2 ≤ (groupBySource articles).length →
      (ensureSourceDiversity articles 2 rand).Perm articles) := by
  constructor
  · intro b1 b2 b3 s1 s2 s3 rand hl1 hl2 hl3 hs1 hs2 hs3 h12 h13 h23
    have h1 : b1 ≠ [] := by intro h; rw [h] at hl1; exact absurd hl1 (by decide)
    have h2 : b2 ≠ [] := by intro h; rw [h] at hl2; exact absurd hl2 (by decide)
    have h3 : b3 ≠ [] := by intro h; rw [h] at hl3; exact absurd hl3 (by decide)
    rcases b1 with _ | ⟨a1, t1⟩
    · exact absurd rfl h1
    rcases b2 with _ | ⟨a2, t2⟩
    · exact absurd rfl h2
    rcases b3 with _ | ⟨a3, t3⟩
    · exact absurd rfl h3
    have hgrp := groupBySource_three (a1 :: t1) (a2 :: t2) (a3 :: t3) s1 s2 s3
      h1 h2 h3 hs1 hs2 hs3 h12 h13 h23
    have hne : ((a1 :: t1) ++ (a2 :: t2) ++ (a3 :: t3)).isEmpty = false := by
      simp
    unfold ensureSourceDiversity
    dsimp only
    rw [hne]
    rw [if_neg (by simp : ¬(false = true))]
    rw [hgrp]
    rw [if_neg (by simp : ¬([(s1, a1 :: t1), (s2, a2 :: t2), (s3, a3 :: t3)].length < 2))]
    show (([a1, a2, a3] ++ roundRobin [(s1, t1), (s2, t2), (s3, t3)]).take 3).map
      Article.source = [s1, s2, s3]
    rw [List.take_left' (by rfl : ([a1, a2, a3] : List Article).length = 3)]
    simp only [List.map_cons, List.map_nil]
    rw [hs1 a1 (List.mem_cons_self a1 t1), hs2 a2 (List.mem_cons_self a2 t2),
      hs3 a3 (List.mem_cons_self a3 t3)]
  · intro articles rand _
    exact ensureSourceDiversity_perm articles 2 rand

/-- Claim C8, witness: three replicated batches of 10 articles from
sources "A", "B", "C" — the first three interleaved items carry the
three sources, and the interleaving is a permutation of the input. -/
theorem claim8_round_robin_witness :
    ((ensureSourceDiversity
        (List.replicate 10 { sampleTechArticle with source := "A" } ++
         List.replicate 10 { sampleTechArticle with source := "B" } ++
         List.replicate 10 { sampleTechArticle with source := "C" }) 2
        (fun _ => 0)).take 3).map Article.source = ["A", "B", "C"] ∧
    (ensureSourceDiversity
        (List.replicate 3 { sampleTechArticle with source := "A" } ++
         List.replicate 3 { sampleTechArticle with source := "B" }) 2
        (fun _ => 0)).Perm
      (List.replicate 3 { sampleTechArticle with source := "A" } ++
       List.replicate 3 { sampleTechArticle with source := "B" }) :=
  ⟨claim8_round_robin.1 _ _ _ "A" "B" "C" (fun _ => 0)
      (List.length_replicate 10 _) (List.length_replicate 10 _)
      (List.length_replicate 10 _)
      (fun a ha => ((List.mem_replicate).mp ha).2 ▸ rfl)
      (fun a ha => ((List.mem_replicate).mp ha).2 ▸ rfl)
      (fun a ha => ((List.mem_replicate).mp ha).2 ▸ rfl)
      (by decide) (by decide) (by decide),
   claim8_round_robin.2 _ (fun _ => 0) (by decide)⟩

theorem multiset_set_le {α : Type} [DecidableEq α] (l : List α) (i : Nat) (a : α) :
    (↑(l.set i a) : Multiset α) ≤ ↑l + {a} := by
  rcases lt_or_le i l.length with hi | hi
  · rw [Multiset.le_iff_count]
    intro c
    rw [Multiset.count_add, Multiset.coe_count, Multiset.coe_count,
      List.count_set a c l i hi]
    have hcount : (if (l[i] == c) = true then 1 else 0) ≤ List.count c l := by
      split_ifs with hc
      · rw [beq_iff_eq] at hc
        exact List.count_pos_iff.mpr (hc ▸ List.getElem_mem hi)
      · exact Nat.zero_le _
    have hsing : Multiset.count c ({a} : Multiset α) =
        if (a == c) = true then 1 else 0 := by
      rw [Multiset.count_singleton]
      rcases eq_or_ne a c with h | h
      · simp [h]
      · simp [h, Ne.symm h]
    rw [hsing]
    omega
  · rw [List.set_eq_of_length_le hi]
    exact le_add_right (le_refl _)

theorem dedupFold_multiset_le (sim : String → String → Bool) :
    ∀ (xs : List Article) (st : DedupState),
    (↑(xs.foldl (dedupStep sim) st).unique : Multiset Article) ≤
      ↑st.unique + ↑xs
  | [], st => by simp
  | x :: xs, st => by
    have hstep : (↑(dedupStep sim st x).unique : Multiset Article) ≤
        ↑st.unique + {x} := by
      unfold dedupStep
      dsimp only
      rcases hf : st.seen.find? (fun e => sim (titleKey x) e.1) with _ | e <;>
        rw [hf]
      · dsimp only
        exact le_of_eq (by rw [← Multiset.coe_singleton, ← Multiset.coe_add])
      · dsimp only
        split_ifs
        · rcases hi : st.unique.findIdx? (fun b => b = e.2) with _ | idx
          · exact le_add_right (le_refl _)
          · exact multiset_set_le st.unique idx x
        · exact le_add_right (le_refl _)
    have hrec := dedupFold_multiset_le sim xs (dedupStep sim st x)
    rw [List.foldl_cons]
    refine hrec.trans ?_
    have : (↑st.unique + ({x} : Multiset Article)) + ↑xs =
        ↑st.unique + ↑(x :: xs) := by
      rw [add_assoc]
      congr 1
    rw [← this]
    exact add_le_add_right hstep _

theorem removeDuplicateArticles_multiset_le (xs : List Article) :
    (↑(removeDuplicateArticles xs) : Multiset Article) ≤ ↑xs := by
  have := dedupFold_multiset_le similarKey xs ⟨[], [], false⟩
  simpa [removeDuplicateArticles, dedupRun] using this

/-- Claim C10: the combined diversify/dedupe pipeline returns at most
`targetCount` articles, and its output is drawn injectively from the
input occurrences — as a multiset it is contained in the flattened input
batches, so no article is fabricated and no input occurrence is emitted
twice. -/
theorem claim10_bound_and_subset (articleArrays : List (List Article))
    (targetCount : Nat) (rand : Nat → Nat) :
    (combineAndDiversifyArticles articleArrays targetCount rand).length ≤
      targetCount ∧
    (↑(combineAndDiversifyArticles articleArrays targetCount rand) :
        Multiset Article) ≤ ↑(articleArrays.flatten) := by
  constructor
  · exact List.length_take_le _ _
  · unfold combineAndDiversifyArticles
    dsimp only
    have htake : (↑((ensureSourceDiversity
        (sortByDateDesc (removeDuplicateArticles articleArrays.flatten)) 3
          rand).take targetCount) : Multiset Article) ≤
        ↑(ensureSourceDiversity
          (sortByDateDesc (removeDuplicateArticles articleArrays.flatten)) 3 rand) :=
      Multiset.coe_le.mpr ((List.take_sublist _ _).subperm)
    have hdiv : (↑(ensureSourceDiversity
        (sortByDateDesc (removeDuplicateArticles articleArrays.flatten)) 3 rand) :
          Multiset Article) =
        ↑(sortByDateDesc (removeDuplicateArticles articleArrays.flatten)) :=
      Multiset.coe_eq_coe.mpr (ensureSourceDiversity_perm _ 3 rand)
    have hsort : (↑(sortByDateDesc (removeDuplicateArticles articleArrays.flatten)) :
        Multiset Article) = ↑(removeDuplicateArticles articleArrays.flatten) :=
      Multiset.coe_eq_coe.mpr (List.mergeSort_perm _ _)
    exact htake.trans (le_of_eq hdiv |>.trans (le_of_eq hsort |>.trans
      (removeDuplicateArticles_multiset_le _)))

/-! ### Claims C1 and C4 — the orchestrator's fallback tiers -/

theorem checkRateLimit_cache_storage (st : EHState) (now : Int) (service : String)
    (maxRequests : Nat) (windowMs : Int) :
    (checkRateLimit st now service maxRequests windowMs).2.cache = st.cache ∧
    (checkRateLimit st now service maxRequests windowMs).2.storage = st.storage := by
  unfold checkRateLimit
  dsimp only
  split_ifs <;> exact ⟨rfl, rfl⟩

theorem getCachedData_miss (st : EHState) (now : Int) (key : String)
    (h : lookupKey st.cache key = none) :
    getCachedData st now key = (none, st) := by
  unfold getCachedData
  rw [h]

theorem getCachedData_fresh (st : EHState) (now : Int) (key : String)
    (e : CacheEntry) (h : lookupKey st.cache key = some e)
    (hf : now - e.timestamp < e.ttl) :
    getCachedData st now key = (some e, st) := by
  unfold getCachedData
  rw [h]
  dsimp only
  rw [if_pos hf]

theorem executeWithRetry_cached (call : Nat → Except String ServiceResponse)
    (st : EHState) (now : Int) (key : String) (e : CacheEntry)
    (h : lookupKey st.cache key = some e) (hf : now - e.timestamp < e.ttl) :
    executeWithRetry call st now key 0 = (.ok e.data, st) := by
  unfold executeWithRetry
  rw [(rfl : MAX_RETRIES + 1 - 0 = 2)]
  simp only [executeWithRetryGo, getCachedData_fresh st now key e h hf]

theorem executeWithRetry_ok0 (call : Nat → Except String ServiceResponse)
    (st : EHState) (now : Int) (key : String) (r : ServiceResponse)
    (hm : lookupKey st.cache key = none) (hc : call 0 = .ok r) :
    executeWithRetry call st now key 0 =
      (.ok r, setCachedData st now key r CACHE_TTL) := by
  unfold executeWithRetry
  rw [(rfl : MAX_RETRIES + 1 - 0 = 2)]
  simp only [executeWithRetryGo, getCachedData_miss st now key hm, hc]

theorem executeWithRetry_ok1 (call : Nat → Except String ServiceResponse)
    (st : EHState) (now : Int) (key : String) (r : ServiceResponse) (e0 : String)
    (hm : lookupKey st.cache key = none) (hc0 : call 0 = .error e0)
    (hc1 : call 1 = .ok r) :
    executeWithRetry call st now key 0 =
      (.ok r, setCachedData st now key r CACHE_TTL) := by
  unfold executeWithRetry
  rw [(rfl : MAX_RETRIES + 1 - 0 = 2)]
  simp only [executeWithRetryGo, getCachedData_miss st now key hm, hc0, hc1,
    MAX_RETRIES]
  norm_num

theorem executeWithRetry_fail (call : Nat → Except String ServiceResponse)
    (st : EHState) (now : Int) (key : String)
    (hm : lookupKey st.cache key = none)
    (hfail : ∀ i : Nat, ∃ e, call i = Except.error e) :
    ∃ e, executeWithRetry call st now key 0 = (.error e, st) := by
  obtain ⟨e0, h0⟩ := hfail 0
  obtain ⟨e1, h1⟩ := hfail 1
  refine ⟨e1, ?_⟩
  unfold executeWithRetry
  rw [(rfl : MAX_RETRIES + 1 - 0 = 2)]
  simp only [executeWithRetryGo, getCachedData_miss st now key hm, h0, h1,
    MAX_RETRIES]
  norm_num

theorem fallbackLoop_all_fail (key name : String) (now : Int) :
    ∀ (fbs : List (Nat → Except String ServiceResponse)) (i : Nat) (st : EHState),
    (∀ f ∈ fbs, ∀ k : Nat, ∃ e, f k = Except.error e) →
    lookupKey st.cache key = none →
    ∃ st', fallbackLoop key name now fbs i st = (none, st') ∧
      st'.cache = st.cache ∧ st'.storage = st.storage
  | [], i, st, _, _ => ⟨st, rfl, rfl, rfl⟩
  | f :: rest, i, st, hfail, hm => by
    unfold fallbackLoop
    dsimp only
    have hcs := checkRateLimit_cache_storage st now
      (name ++ "_Fallback_" ++ toString (i + 1)) 100 (60 * 60 * 1000)
    set c := checkRateLimit st now (name ++ "_Fallback_" ++ toString (i + 1)) 100
      (60 * 60 * 1000) with hc
    by_cases hallow : c.1 = true
    · rw [if_pos hallow]
      obtain ⟨e, hret⟩ := executeWithRetry_fail f c.2 now key
        (by rw [hcs.1]; exact hm) (hfail f (List.mem_cons_self f rest))
      rw [hret]
      have hrest := fallbackLoop_all_fail key name now rest (i + 1)
        { c.2 with errorLog :=
            logError c.2.errorLog (name ++ "_Fallback_" ++ toString (i + 1)) e now 0 }
        (fun g hg => hfail g (List.mem_cons_of_mem f hg))
        (by dsimp only; rw [hcs.1]; exact hm)
      obtain ⟨st', hloop, hc', hs'⟩ := hrest
      exact ⟨st', hloop, by rw [hc']; exact hcs.1, by rw [hs']; exact hcs.2⟩
    · rw [if_neg hallow]
      have hrest := fallbackLoop_all_fail key name now rest (i + 1)
        c.2 (fun g hg => hfail g (List.mem_cons_of_mem f hg))
        (by rw [hcs.1]; exact hm)
      obtain ⟨st', hloop, hc', hs'⟩ := hrest
      exact ⟨st', hloop, by rw [hc']; exact hcs.1, by rw [hs']; exact hcs.2⟩

theorem fallbackLoop_fresh (key name : String) (now : Int) (e : CacheEntry)
    (hf : now - e.timestamp < e.ttl) :
    ∀ (fbs : List (Nat → Except String ServiceResponse)) (i : Nat) (st : EHState),
    lookupKey st.cache key = some e →
    (∃ st', fallbackLoop key name now fbs i st = (some e.data, st')) ∨
    (∃ st', fallbackLoop key name now fbs i st = (none, st') ∧
      lookupKey st'.cache key = some e)
  | [], i, st, hm => Or.inr ⟨st, rfl, hm⟩
  | f :: rest, i, st, hm => by
    unfold fallbackLoop
    dsimp only
    have hcs := checkRateLimit_cache_storage st now
      (name ++ "_Fallback_" ++ toString (i + 1)) 100 (60 * 60 * 1000)
    set c := checkRateLimit st now (name ++ "_Fallback_" ++ toString (i + 1)) 100
      (60 * 60 * 1000) with hc
    by_cases hallow : c.1 = true
    · rw [if_pos hallow]
      rw [executeWithRetry_cached f c.2 now key e (by rw [hcs.1]; exact hm) hf]
      exact Or.inl ⟨_, rfl⟩
    · rw [if_neg hallow]
      exact fallbackLoop_fresh key name now e hf rest (i + 1) c.2
        (by rw [hcs.1]; exact hm)

theorem loadCachedDataFromStorage_miss (st : EHState) (now : Int) (key : String)
    (h : lookupKey st.storage key = none) :
    loadCachedDataFromStorage st now key = (none, st) := by
  unfold loadCachedDataFromStorage
  rw [h]

theorem baseArticles_length (now : Int) : (baseArticles now).length = 24 := rfl

theorem getMockArticles_data_ne_nil (category : Category) (limit : Nat)
    (now : Int) (hl : limit ≠ 0) : (getMockArticles category limit now).data ≠ [] := by
  unfold getMockArticles
  dsimp only
  intro hnil
  rw [List.take_eq_nil_iff] at hnil
  rcases hnil with hnil | hnil
  · exact hl hnil
  · set f1 := (if category ≠ Category.ALL then
        (baseArticles now).filter (fun a => a.category = category)
      else baseArticles now) with hf1
    by_cases h : f1.length = 0
    · rw [if_pos h] at hnil
      rw [List.map_eq_nil_iff, List.enum_eq_nil, List.take_eq_nil_iff] at hnil
      rcases hnil with h3 | hb
      · exact absurd h3 (by decide)
      · have hlen := congrArg List.length hb
        rw [baseArticles_length] at hlen
        exact absurd hlen (by decide)
    · rw [if_neg h] at hnil
      exact h (by rw [hnil]; rfl)

theorem getMockDataFallback_data_ne_nil (serviceName : String) (now : Int)
    (m : ServiceResponse) (h : getMockDataFallback serviceName now = some m) :
    m.data ≠ [] := by
  unfold getMockDataFallback at h
  by_cases hcat : (strIncludes serviceName "category" ||
      strIncludes serviceName "Category") = true
  · rw [if_pos hcat] at h
    dsimp only at h
    have hm := Option.some.inj h
    rw [← hm]
    exact getMockArticles_data_ne_nil _ 15 now (by decide)
  · rw [if_neg hcat] at h
    dsimp only at h
    have hm := Option.some.inj h
    rw [← hm]
    exact getMockArticles_data_ne_nil _ 10 now (by decide)

theorem getMockDataFallback_isSome (serviceName : String) (now : Int) :
    ∃ m, getMockDataFallback serviceName now = some m := by
  unfold getMockDataFallback
  split_ifs <;> exact ⟨_, rfl⟩

/-- Claim C1, counterexample: with a failing primary, no fallbacks and no
cache, `executeWithFallback` returns the MOCK demo data (ten
`MockDataService` articles relabelled "Demo Data (API Unavailable)"),
not the two synthetic placeholder articles of `getEmptyFallbackData` as
the claim states. -/
theorem claim1_counterexample :
    (executeWithFallback (fun _ => .error "network down") [] "k" "API"
        EHState.empty 0).1 =
      .ok { getMockArticles .ALL 10 0 with
            source := "Demo Data (API Unavailable)" } ∧
    (getMockArticles .ALL 10 0).data ≠ (getEmptyFallbackData "API" 0).data := by
  exact ⟨rfl, by decide⟩

/-- Claim C1, amended: `executeWithFallback` never throws — every run
returns an `ok` result (part 1); and when no in-memory or durable cache
entry exists for the key and the primary and every fallback fail on all
attempts, the result is the mock demo data tier's response — a non-empty
result (part 2).  The two synthetic placeholder articles would be
returned only if the mock tier produced nothing, which it never does. -/
theorem claim1_amended :
    (∀ (primary : Nat → Except String ServiceResponse)
       (fallbacks : List (Nat → Except String ServiceResponse))
       (key name : String) (st : EHState) (now : Int),
       ∃ r st2, executeWithFallback primary fallbacks key name st now =
         (.ok r, st2)) ∧
    (∀ (primary : Nat → Except String ServiceResponse)
       (fallbacks : List (Nat → Except String ServiceResponse))
       (key name : String) (st : EHState) (now : Int) (m : ServiceResponse),
       lookupKey st.cache key = none →
       lookupKey st.storage key = none →
       (∀ i : Nat, ∃ e, primary i = Except.error e) →
       (∀ f ∈ fallbacks, ∀ i : Nat, ∃ e, f i = Except.error e) →
       getMockDataFallback name now = some m →
       (executeWithFallback primary fallbacks key name st now).1 = .ok m ∧
       m.data ≠ []) := by
  constructor
  · intro primary fallbacks key name st now
    unfold executeWithFallback
    dsimp only
    repeat' split
    all_goals exact ⟨_, _, rfl⟩
  · intro primary fallbacks key name st now m hcm hsm hprim hfb hmock
    refine ⟨?_, getMockDataFallback_data_ne_nil name now m hmock⟩
    unfold executeWithFallback
    rw [getCachedData_miss st now key hcm]
    dsimp only
    set c := checkRateLimit st now name 100 (60 * 60 * 1000) with hcdef
    have hcs := checkRateLimit_cache_storage st now name 100 (60 * 60 * 1000)
    rw [← hcdef] at hcs
    by_cases hallow : c.1 = true
    · rw [if_pos hallow]
      obtain ⟨e, hret⟩ := executeWithRetry_fail primary c.2 now key
        (by rw [hcs.1]; exact hcm) hprim
      rw [hret]
      dsimp only
      obtain ⟨st2, hloop, hc2, hs2⟩ := fallbackLoop_all_fail key name now
        fallbacks 0 { c.2 with errorLog := logError c.2.errorLog name e now 0 }
        hfb (by dsimp only; rw [hcs.1]; exact hcm)
      rw [hloop]
      dsimp only
      rw [show lookupKey st2.cache key = none from by
        rw [hc2]; dsimp only; rw [hcs.1]; exact hcm]
      rw [loadCachedDataFromStorage_miss st2 now key
        (by rw [hs2]; dsimp only; rw [hcs.2]; exact hsm)]
      rw [hmock]
    · rw [if_neg hallow]
      dsimp only
      obtain ⟨st2, hloop, hc2, hs2⟩ := fallbackLoop_all_fail key name now
        fallbacks 0 c.2 hfb (by rw [hcs.1]; exact hcm)
      rw [hloop]
      dsimp only
      rw [show lookupKey st2.cache key = none from by rw [hc2, hcs.1]; exact hcm]
      rw [loadCachedDataFromStorage_miss st2 now key
        (by rw [hs2, hcs.2]; exact hsm)]
      rw [hmock]

/-- Claim C1, witness: part 1 at a succeeding primary, and part 2 on the
concrete all-fail run — the returned result is the relabelled `ALL` mock
response and it is non-empty. -/
theorem claim1_amended_witness :
    (∃ r st2, executeWithFallback (fun _ => .ok tinyResponse) [] "k" "API"
        EHState.empty 0 = (.ok r, st2)) ∧
    ((executeWithFallback (fun _ => .error "down") [] "k2" "API"
        EHState.empty 5).1 =
      .ok { getMockArticles .ALL 10 5 with
            source := "Demo Data (API Unavailable)" } ∧
     ({ getMockArticles .ALL 10 5 with
        source := "Demo Data (API Unavailable)" } : ServiceResponse).data ≠ []) :=
  ⟨claim1_amended.1 (fun _ => .ok tinyResponse) [] "k" "API" EHState.empty 0,
   claim1_amended.2 (fun _ => .error "down") [] "k2" "API" EHState.empty 5
     { getMockArticles .ALL 10 5 with source := "Demo Data (API Unavailable)" }
     rfl rfl (fun _ => ⟨"down", rfl⟩)
     (fun f hf => absurd hf (List.not_mem_nil f)) rfl⟩

theorem loadCachedDataFromStorage_fresh (st : EHState) (now : Int) (key : String)
    (d : CacheEntry) (h : lookupKey st.storage key = some d)
    (hf : now - d.timestamp < d.ttl) :
    loadCachedDataFromStorage st now key =
      (some d, { st with cache := setKey st.cache key d }) := by
  unfold loadCachedDataFromStorage
  rw [h]
  dsimp only
  rw [if_pos hf]

/-- Claim C4, counterexample: a fresh cache entry satisfies the call
BEFORE the primary operation — with a fresh entry present, the result is
the cached response even though the primary would return a different
one, contradicting "no cache read satisfies the call before the primary
operation has been attempted". -/
theorem claim4_counterexample :
    (executeWithFallback (fun _ => .ok { tinyResponse with source := "fresh" })
        [] "k" "API" ⟨[("k", ⟨tinyResponse, 0, 100⟩)], [], [], []⟩ 0).1 =
      .ok tinyResponse ∧
    tinyResponse ≠ { tinyResponse with source := "fresh" } :=
  ⟨rfl, by decide⟩

/-- Claim C4, amended: the true precedence of `executeWithFallback`.
Part 1: a fresh cache entry satisfies the call first, whatever the
primary would return.  Part 2: on a cache miss, a rate-limit-approved
primary that succeeds immediately serves the call.  Part 3: the retry
budget — a primary failing once and succeeding on the retry serves the
call.  Part 4: a rate-limit-exceeded primary is skipped without
consuming a retry, and the first approved, succeeding fallback serves
the call irrespective of the primary.  Part 5: on exhaustion with no
in-memory entry, a fresh durable entry is consulted and served (the
remaining tiers — mock data, then synthetic placeholder — are those of
claim C1). -/
theorem claim4_amended :
    (∀ (primary : Nat → Except String ServiceResponse)
       (fallbacks : List (Nat → Except String ServiceResponse))
       (key name : String) (st : EHState) (now : Int) (e : CacheEntry),
       lookupKey st.cache key = some e → now - e.timestamp < e.ttl →
       (executeWithFallback primary fallbacks key name st now).1 = .ok e.data) ∧
    (∀ (primary : Nat → Except String ServiceResponse)
       (fallbacks : List (Nat → Except String ServiceResponse))
       (key name : String) (st : EHState) (now : Int) (r : ServiceResponse),
       lookupKey st.cache key = none →
       (checkRateLimit st now name 100 (60 * 60 * 1000)).1 = true →
       primary 0 = .ok r →
       (executeWithFallback primary fallbacks key name st now).1 = .ok r) ∧
    (∀ (primary : Nat → Except String ServiceResponse)
       (fallbacks : List (Nat → Except String ServiceResponse))
       (key name : String) (st : EHState) (now : Int) (r : ServiceResponse)
       (e0 : String),
       lookupKey st.cache key = none →
       (checkRateLimit st now name 100 (60 * 60 * 1000)).1 = true →
       primary 0 = .error e0 → primary 1 = .ok r →
       (executeWithFallback primary fallbacks key name st now).1 = .ok r) ∧
    (∀ (primary f : Nat → Except String ServiceResponse)
       (rest : List (Nat → Except String ServiceResponse))
       (key name : String) (st : EHState) (now : Int) (r : ServiceResponse),
       lookupKey st.cache key = none →
       (checkRateLimit st now name 100 (60 * 60 * 1000)).1 = false →
       (checkRateLimit (checkRateLimit st now name 100 (60 * 60 * 1000)).2 now
         (name ++ "_Fallback_" ++ toString (0 + 1)) 100 (60 * 60 * 1000)).1 = true →
       f 0 = .ok r →
       (executeWithFallback primary (f :: rest) key name st now).1 = .ok r) ∧
    (∀ (primary : Nat → Except String ServiceResponse)
       (fallbacks : List (Nat → Except String ServiceResponse))
       (key name : String) (st : EHState) (now : Int) (d : CacheEntry),
       lookupKey st.cache key = none →
       lookupKey st.storage key = some d → now - d.timestamp < d.ttl →
       (∀ i : Nat, ∃ e, primary i = Except.error e) →
       (∀ g ∈ fallbacks, ∀ i : Nat, ∃ e, g i = Except.error e) →
       (executeWithFallback primary fallbacks key name st now).1 = .ok d.data) := by
  refine ⟨?_, ?_, ?_, ?_, ?_⟩
  · intro primary fallbacks key name st now e hm hf
    unfold executeWithFallback
    rw [getCachedData_fresh st now key e hm hf]
    dsimp only
    set c := checkRateLimit st now name 100 (60 * 60 * 1000) with hcdef
    have hcs := checkRateLimit_cache_storage st now name 100 (60 * 60 * 1000)
    rw [← hcdef] at hcs
    by_cases hallow : c.1 = true
    · rw [if_pos hallow]
      rw [executeWithRetry_cached primary c.2 now key e (by rw [hcs.1]; exact hm) hf]
    · rw [if_neg hallow]
      dsimp only
      rcases fallbackLoop_fresh key name now e hf fallbacks 0 c.2
          (by rw [hcs.1]; exact hm) with ⟨st', hloop⟩ | ⟨st', hloop, _⟩ <;>
        rw [hloop]
  · intro primary fallbacks key name st now r hm hRL hc0
    unfold executeWithFallback
    rw [getCachedData_miss st now key hm]
    dsimp only
    set c := checkRateLimit st now name 100 (60 * 60 * 1000) with hcdef
    have hcs := checkRateLimit_cache_storage st now name 100 (60 * 60 * 1000)
    rw [← hcdef] at hcs
    rw [if_pos hRL]
    rw [executeWithRetry_ok0 primary c.2 now key r (by rw [hcs.1]; exact hm) hc0]
  · intro primary fallbacks key name st now r e0 hm hRL hc0 hc1
    unfold executeWithFallback
    rw [getCachedData_miss st now key hm]
    dsimp only
    set c := checkRateLimit st now name 100 (60 * 60 * 1000) with hcdef
    have hcs := checkRateLimit_cache_storage st now name 100 (60 * 60 * 1000)
    rw [← hcdef] at hcs
    rw [if_pos hRL]
    rw [executeWithRetry_ok1 primary c.2 now key r e0 (by rw [hcs.1]; exact hm)
      hc0 hc1]
  · intro primary f rest key name st now r hm hRL hRL2 hc0
    unfold executeWithFallback
    rw [getCachedData_miss st now key hm]
    dsimp only
    set c := checkRateLimit st now name 100 (60 * 60 * 1000) with hcdef
    have hcs := checkRateLimit_cache_storage st now name 100 (60 * 60 * 1000)
    rw [← hcdef] at hcs
    rw [if_neg (by rw [hRL]; exact Bool.false_ne_true)]
    dsimp only
    unfold fallbackLoop
    dsimp only
    set c2 := checkRateLimit c.2 now (name ++ "_Fallback_" ++ toString (0 + 1))
      100 (60 * 60 * 1000) with hc2def
    have hcs2 := checkRateLimit_cache_storage c.2 now
      (name ++ "_Fallback_" ++ toString (0 + 1)) 100 (60 * 60 * 1000)
    rw [← hc2def] at hcs2
    rw [if_pos hRL2]
    rw [executeWithRetry_ok0 f c2.2 now key r
      (by rw [hcs2.1, hcs.1]; exact hm) hc0]
  · intro primary fallbacks key name st now d hm hsd hfd hprim hfb
    unfold executeWithFallback
    rw [getCachedData_miss st now key hm]
    dsimp only
    set c := checkRateLimit st now name 100 (60 * 60 * 1000) with hcdef
    have hcs := checkRateLimit_cache_storage st now name 100 (60 * 60 * 1000)
    rw [← hcdef] at hcs
    by_cases hallow : c.1 = true
    · rw [if_pos hallow]
      obtain ⟨e, hret⟩ := executeWithRetry_fail primary c.2 now key
        (by rw [hcs.1]; exact hm) hprim
      rw [hret]
      dsimp only
      obtain ⟨st2, hloop, hc2, hs2⟩ := fallbackLoop_all_fail key name now
        fallbacks 0 { c.2 with errorLog := logError c.2.errorLog name e now 0 }
        hfb (by dsimp only; rw [hcs.1]; exact hm)
      rw [hloop]
      dsimp only
      rw [show lookupKey st2.cache key = none from by
        rw [hc2]; dsimp only; rw [hcs.1]; exact hm]
      rw [loadCachedDataFromStorage_fresh st2 now key d
        (by rw [hs2]; dsimp only; rw [hcs.2]; exact hsd) hfd]
    · rw [if_neg hallow]
      dsimp only
      obtain ⟨st2, hloop, hc2, hs2⟩ := fallbackLoop_all_fail key name now
        fallbacks 0 c.2 hfb (by rw [hcs.1]; exact hm)
      rw [hloop]
      dsimp only
      rw [show lookupKey st2.cache key = none from by rw [hc2, hcs.1]; exact hm]
      rw [loadCachedDataFromStorage_fresh st2 now key d
        (by rw [hs2, hcs.2]; exact hsd) hfd]

/-- Claim C4, witness: the precedence parts at concrete states — fresh
cache beats a succeeding primary; a cache miss with an approved primary
serves the primary result; a rate-limited primary is skipped and the
first fallback serves the call; a fresh durable entry serves an
exhausted run. -/
theorem claim4_amended_witness :
    (executeWithFallback (fun _ => .ok { tinyResponse with source := "fresh" })
        [] "k" "API" ⟨[("k", ⟨tinyResponse, 0, 100⟩)], [], [], []⟩ 0).1 =
      .ok tinyResponse ∧
    (executeWithFallback (fun _ => .ok tinyResponse) [] "k" "API"
        EHState.empty 0).1 = .ok tinyResponse ∧
    (executeWithFallback (fun _ => .error "down")
        [fun _ => .ok tinyResponse] "k" "API"
        ⟨[], [], [("API", ⟨100, 10⟩)], []⟩ 5).1 = .ok tinyResponse ∧
    (executeWithFallback (fun _ => .error "down") [] "k" "API"
        ⟨[], [("k", ⟨tinyResponse, 0, 100⟩)], [], []⟩ 5).1 = .ok tinyResponse :=
  ⟨claim4_amended.1 _ [] "k" "API" _ 0 ⟨tinyResponse, 0, 100⟩ rfl (by decide),
   claim4_amended.2.1 _ [] "k" "API" EHState.empty 0 tinyResponse rfl
     (by decide) rfl,
   claim4_amended.2.2.2.1 _ _ [] "k" "API" ⟨[], [], [("API", ⟨100, 10⟩)], []⟩ 5
     tinyResponse rfl (by decide) (by decide) rfl,
   claim4_amended.2.2.2.2 _ [] "k" "API"
     ⟨[], [("k", ⟨tinyResponse, 0, 100⟩)], [], []⟩ 5 ⟨tinyResponse, 0, 100⟩
     rfl rfl (by decide) (fun _ => ⟨"down", rfl⟩)
     (fun g hg => absurd hg (List.not_mem_nil g))⟩

end NewsHub
